import Mathlib

/-!
Verification of the FlatCAM Excellon parser and its solid-geometry
derivation (`src/flatcamParsers/ParseExcellon.py`, class `Excellon`).

The Python code is shallowly embedded:
* input lines are `List Char`; each regular expression of the source is
  embedded as an executable matcher over `List Char` following the
  semantics of the Python `re` engine on the pattern (anchoring, greedy
  repetition, ordering of alternatives);
* floating point arithmetic is embedded as exact rational arithmetic (`ℚ`);
* Python dictionaries (`self.tools`) are association lists preserving
  insertion order, with tool keys already in the canonical `str(int(...))`
  form, embedded as `ℕ`; the empty tool reference `""` is `none`;
* Shapely's buffer and affine operations are opaque `Geom` constructors;
* exceptions are embedded by `Option` results and by early-exit statuses:
  `parse_lines` returns a `PStatus` (`ok` for a plain return, `gcodeMark`
  for the G20/G21 dialect abort, `fail` for an exception reaching the
  outer handler), so no exception escapes by construction;
* the cooperative-abort check, logging, progress reporting and the
  `source_file` accumulation are omitted: they do not affect the parsed
  data.
-/

namespace ExcellonSpec

/-! ### Characters, digit strings and tokens -/

def isDigitCh (c : Char) : Bool := decide ('0' ≤ c) && decide (c ≤ '9')

/-- `\s` of the Python `re` module. -/
def isSpaceCh (c : Char) : Bool :=
  c = ' ' || c = '\t' || c = '\n' || c = '\r' || c = '\x0b' || c = '\x0c'

/-- Numeric value of a digit string (most significant digit first). -/
def digitsVal (l : List Char) : ℕ :=
  l.foldl (fun a c => 10 * a + (c.toNat - 48)) 0

/-- Does `p` occur as a prefix of `s`? -/
def liStarts : List Char → List Char → Bool
  | [], _ => true
  | _ :: _, [] => false
  | p :: ps, s :: ss => p = s && liStarts ps ss

/-- Does `p` occur as a contiguous substring of `s`? -/
def containsTok (p : List Char) : List Char → Bool
  | [] => liStarts p []
  | c :: rest => liStarts p (c :: rest) || containsTok p rest

def lit (s : String) : List Char := s.toList

/-! ### Exact rational arithmetic

The Python code computes with floats; the embedding computes with exact
rationals.  The field operations of `ℚ` are `@[irreducible]` in the
ambient library, so the embedding uses its own kernel-reducible
operations (via the normalizing constructor `mkRat`), each proved equal
to the corresponding field operation. -/

def qmul (a b : ℚ) : ℚ := mkRat (a.num * b.num) (a.den * b.den)

def qdiv (a b : ℚ) : ℚ := Rat.divInt (a.num * b.den) (a.den * b.num)

def qadd (a b : ℚ) : ℚ := mkRat (a.num * b.den + b.num * a.den) (a.den * b.den)

def qsub (a b : ℚ) : ℚ := mkRat (a.num * b.den - b.num * a.den) (a.den * b.den)

theorem qmul_eq (a b : ℚ) : qmul a b = a * b := by
  rw [qmul, Rat.mkRat_eq_div]
  push_cast
  conv_rhs => rw [← Rat.num_div_den a, ← Rat.num_div_den b]
  rw [div_mul_div_comm]

theorem qadd_eq (a b : ℚ) : qadd a b = a + b := by
  rw [qadd, Rat.mkRat_eq_div]
  push_cast
  conv_rhs => rw [← Rat.num_div_den a, ← Rat.num_div_den b]
  rw [div_add_div _ _ (by positivity) (by positivity)]
  ring_nf

theorem qsub_eq (a b : ℚ) : qsub a b = a - b := by
  rw [qsub, Rat.mkRat_eq_div]
  push_cast
  conv_rhs => rw [← Rat.num_div_den a, ← Rat.num_div_den b]
  rw [div_sub_div _ _ (by positivity) (by positivity)]
  ring_nf

theorem qdiv_eq (a b : ℚ) : qdiv a b = a / b := by
  rcases eq_or_ne b 0 with rfl | hb
  · simp [qdiv]
  · have hbn : b.num ≠ 0 := Rat.num_ne_zero.mpr hb
    rw [qdiv, Rat.divInt_eq_div]
    push_cast
    conv_rhs => rw [← Rat.num_div_den a, ← Rat.num_div_den b]
    have had : ((a.den : ℚ)) ≠ 0 := by positivity
    have hbd : ((b.den : ℚ)) ≠ 0 := by positivity
    have hbn' : ((b.num : ℚ)) ≠ 0 := Int.cast_ne_zero.mpr hbn
    field_simp

/-- `str.strip(' \r\n')` of the parser's line cleanup. -/
def isStripCh (c : Char) : Bool := c = ' ' || c = '\r' || c = '\n'

def stripLine (l : List Char) : List Char :=
  ((l.dropWhile isStripCh).reverse.dropWhile isStripCh).reverse

/-- The `[-\+]?` head of the numeric patterns: sign value and the rest. -/
def splitSign (s : List Char) : ℚ × List Char :=
  match s with
  | '-' :: t => (-1, t)
  | '+' :: t => (1, t)
  | t => (1, t)

/-- `10.0 ** e` of the Python code, as an exact rational (written through
`ℕ` powers so that it evaluates by kernel reduction). -/
def pow10 (e : ℤ) : ℚ :=
  if 0 ≤ e then ((10 ^ e.toNat : ℕ) : ℚ) else mkRat 1 (10 ^ (-e).toNat)

/-- Python `float` on a token of shape `[-+]?\d*\.?\d*`: `none` embeds a
`ValueError` (e.g. on `""`, `"+"` or `"."`). -/
def floatLit (s : List Char) : Option ℚ :=
  let sg := splitSign s
  let ds1 := sg.2.takeWhile isDigitCh
  match sg.2.drop ds1.length with
  | [] => if ds1 = [] then none else some (qmul sg.1 (digitsVal ds1 : ℚ))
  | '.' :: r2 =>
      let ds2 := r2.takeWhile isDigitCh
      if r2.drop ds2.length ≠ [] then none
      else if ds1 = [] ∧ ds2 = [] then none
      else some (qmul sg.1 (qadd (digitsVal ds1 : ℚ) (qdiv (digitsVal ds2 : ℚ) (pow10 ds2.length))))
  | _ => none

/-! ### Line matchers (one per compiled pattern of `Excellon.__init__`) -/

/-- `^G2([01])$` (`detect_gcode_re`). -/
def gcodeMatch (l : List Char) : Bool := l = lit "G20" || l = lit "G21"

/-- `^M48$` (`hbegin_re`). -/
def hbeginMatch (l : List Char) : Bool := l = lit "M48"

/-- `\;\s*(HEADER)` (`allegro_hbegin_re`), searched anywhere in the line. -/
def allegroHbMatch : List Char → Bool
  | [] => false
  | ';' :: rest => liStarts (lit "HEADER") (rest.dropWhile isSpaceCh) || allegroHbMatch rest
  | _ :: rest => allegroHbMatch rest

/-- `^;(.*)$` (`comm_re`). -/
def commMatch (l : List Char) : Bool := l.head? = some ';'

/-- `^(?:M95|%)$` (`hend_re`). -/
def hendMatch (l : List Char) : Bool := l = lit "M95" || l = lit "%"

/-- `^G9([01])$` (`absinc_re`). -/
def absincMatch (l : List Char) : Bool := l = lit "G90" || l = lit "G91"

/-- `^((G04)|(M09)|(M06)|(M00)|(M30))` (`stop_re`). -/
def stopMatch (l : List Char) : Bool :=
  liStarts (lit "G04") l || liStarts (lit "M09") l || liStarts (lit "M06") l ||
    liStarts (lit "M00") l || liStarts (lit "M30") l

/-- `^T(\d+)` (`toolsel_re`): the tool number digits. -/
def toolselMatch (l : List Char) : Option (List Char) :=
  match l with
  | 'T' :: rest =>
      let ds := rest.takeWhile isDigitCh
      if ds = [] then none else some ds
  | _ => none

/-- Token of shape `\d+\.?\d*` at the head of `r` (headerless tool diameter). -/
def diamTok (r : List Char) : Option (List Char) :=
  let ds1 := r.takeWhile isDigitCh
  if ds1 = [] then none
  else
    match r.drop ds1.length with
    | '.' :: r2 => some (ds1 ++ '.' :: r2.takeWhile isDigitCh)
    | _ => some ds1

/-- `^T(\d+)(?:.?C(\d+\.?\d*))?` (`toolset_hl_re`): tool digits plus the
optional diameter group.  The greedy `.?` first tries to consume one
character before the literal `C`. -/
def toolsetHlMatch (l : List Char) : Option (List Char × Option (List Char)) :=
  match l with
  | 'T' :: rest =>
      let ds := rest.takeWhile isDigitCh
      if ds = [] then none
      else
        let r := rest.drop ds.length
        let d :=
          match r with
          | _ :: 'C' :: r2 =>
              match diamTok r2 with
              | some t => some t
              | none => match r with
                        | 'C' :: r1 => diamTok r1
                        | _ => none
          | 'C' :: r1 => diamTok r1
          | _ => none
        some (ds, d)
  | _ => none

/-- Token of shape `\d*\.?\d*` at the head of `r` (header tool diameter);
may be empty. -/
def looseTok (r : List Char) : List Char :=
  let ds1 := r.takeWhile isDigitCh
  match r.drop ds1.length with
  | '.' :: r2 => ds1 ++ '.' :: r2.takeWhile isDigitCh
  | _ => ds1

/-- The lookahead `(?=.*C,?(\d*\.?\d*))` of `toolset_re`: the group sits
after the last `C` of `r`, behind an optional comma. -/
def lastCGroup : List Char → Option (List Char)
  | [] => none
  | 'C' :: rest =>
      match lastCGroup rest with
      | some t => some t
      | none =>
          match rest with
          | ',' :: r2 => some (looseTok r2)
          | r2 => some (looseTok r2)
  | _ :: rest => lastCGroup rest

/-- `^T(\d+)(?=.*C,?(\d*\.?\d*))?...[CFSBHT]` (`toolset_re`): tool digits
followed by one of `CFSBHT`, plus the optional diameter lookahead group. -/
def toolsetMatch (l : List Char) : Option (List Char × Option (List Char)) :=
  match l with
  | 'T' :: rest =>
      let ds := rest.takeWhile isDigitCh
      if ds = [] then none
      else
        let r := rest.drop ds.length
        match r with
        | c :: _ =>
            if c = 'C' || c = 'F' || c = 'S' || c = 'B' || c = 'H' || c = 'T' then
              some (ds, lastCGroup r)
            else none
        | [] => none
  | _ => none

/-- `R(\d+)` (`repeat_re`), searched anywhere: first `R` followed by digits. -/
def repeatSearch : List Char → Option ℕ
  | [] => none
  | 'R' :: rest =>
      let ds := rest.takeWhile isDigitCh
      if ds = [] then repeatSearch rest else some (digitsVal ds)
  | _ :: rest => repeatSearch rest

/-- `^([^G]+)G85(.*)$` (`slots_re`): the coordinate groups left and right
of the `G85` token. -/
def slotsMatch (l : List Char) : Option (List Char × List Char) :=
  let a := l.takeWhile (fun c => ¬ (c = 'G'))
  if a = [] then none
  else if liStarts (lit "G85") (l.drop a.length) then some (a, l.drop (a.length + 3))
  else none

/-- Suffix of `l` from its first `X` or `Y` on. -/
def suffixFromXY : List Char → Option (List Char)
  | [] => none
  | c :: rest => if c = 'X' || c = 'Y' then some (c :: rest) else suffixFromXY rest

/-- The rest of the list after the last occurrence of `c`. -/
def lastOccTail (c : Char) : List Char → Option (List Char)
  | [] => none
  | a :: rest =>
      match lastOccTail c rest with
      | some t => some t
      | none => if a = c then some rest else none

/-- Capture of `([-\+]?\d*)` at the head of `r`. -/
def signDigits (r : List Char) : List Char :=
  match r with
  | '+' :: t => '+' :: t.takeWhile isDigitCh
  | '-' :: t => '-' :: t.takeWhile isDigitCh
  | t => t.takeWhile isDigitCh

/-- Suffix of `l` after its last `.` (the whole of `l` if it has none). -/
def afterLastDot (l : List Char) : List Char :=
  (l.reverse.takeWhile (fun c => ¬ (c = '.'))).reverse

/-- `(?!.*\.)(?=.*X([-\+]?\d*))?(?=.*Y([-\+]?\d*))?[XY]`
(`coordsnoperiod_re`), searched: the match sits at the first `X`/`Y` that
has no `.` after it, and each group captures after the last `X` (resp.
`Y`) of that suffix. -/
def coordsNoPeriodMatch (l : List Char) : Option (Option (List Char) × Option (List Char)) :=
  match suffixFromXY (afterLastDot l) with
  | none => none
  | some u => some ((lastOccTail 'X' u).map signDigits, (lastOccTail 'Y' u).map signDigits)

/-- Capture of `([-\+]?\d*\.\d*)` at the head of `r`: requires the literal
dot after the optional sign and integer digits. -/
def periodTokAt (r : List Char) : Option (List Char) :=
  let sg : List Char × List Char :=
    match r with
    | '+' :: t => (['+'], t)
    | '-' :: t => (['-'], t)
    | t => ([], t)
  let ds1 := sg.2.takeWhile isDigitCh
  match sg.2.drop ds1.length with
  | '.' :: r2 => some (sg.1 ++ ds1 ++ '.' :: r2.takeWhile isDigitCh)
  | _ => none

/-- Backtracking of `.*X([-\+]?\d*\.\d*)`: the last occurrence of `c`
whose tail carries a dotted number. -/
def lastPeriodTail (c : Char) : List Char → Option (List Char)
  | [] => none
  | a :: rest =>
      match lastPeriodTail c rest with
      | some t => some t
      | none => if a = c then periodTokAt rest else none

/-- `(?=.*X([-\+]?\d*\.\d*))?(?=.*Y([-\+]?\d*\.\d*))?[XY]`
(`coordsperiod_re`), searched: the match sits at the first `X`/`Y` of the
line. -/
def coordsPeriodMatch (l : List Char) : Option (Option (List Char) × Option (List Char)) :=
  match suffixFromXY l with
  | none => none
  | some u => some (lastPeriodTail 'X' u, lastPeriodTail 'Y' u)

inductive Units where
  | IN
  | MM
deriving DecidableEq, Repr

/-- `^(INCH|METRIC)(?:,([TL])Z)?,?(\d*\.\d+)?.*$` (`units_re`), used with
`re.match`: the units word, the optional zeros letter and the optional
format (returned as the digit counts left and right of the dot). -/
def unitsMatch (l : List Char) : Option (Units × Option Char × Option (ℕ × ℕ)) :=
  let hd : Option (Units × List Char) :=
    if liStarts (lit "INCH") l then some (Units.IN, l.drop 4)
    else if liStarts (lit "METRIC") l then some (Units.MM, l.drop 6)
    else none
  match hd with
  | none => none
  | some (u, r) =>
      let zr : Option Char × List Char :=
        match r with
        | ',' :: 'T' :: 'Z' :: r2 => (some 'T', r2)
        | ',' :: 'L' :: 'Z' :: r2 => (some 'L', r2)
        | _ => (none, r)
      let r2 := match zr.2 with
                | ',' :: r3 => r3
                | r3 => r3
      let ds1 := r2.takeWhile isDigitCh
      let f : Option (ℕ × ℕ) :=
        match r2.drop ds1.length with
        | '.' :: r3 =>
            let ds2 := r3.takeWhile isDigitCh
            if ds2 = [] then none else some (ds1.length, ds2.length)
        | _ => none
      some (u, zr.1, f)

/-- `^M7([12])$` (`meas_re`). -/
def measMatch (l : List Char) : Option Units :=
  if l = lit "M71" then some Units.MM
  else if l = lit "M72" then some Units.IN
  else none

/-- `re.search(r'[LT]Z', eline)`: the first `LZ`/`TZ` substring. -/
def ltzMatch : List Char → Option (List Char)
  | [] => none
  | 'L' :: 'Z' :: _ => some ['L', 'Z']
  | 'T' :: 'Z' :: _ => some ['T', 'Z']
  | _ :: rest => ltzMatch rest

/-- `(\;\s*Holesize \d+.\s*\=\s*(\d+.\d+).*(MILS|MM))` (`tool_units_re`),
searched: yields the hole-size group (as the digit runs around its middle
wildcard character) and the last `MILS`/`MM` word.  The greedy single
path of the pattern is embedded; backtracking of the Python engine on
degenerate digit runs is not replicated (no claim exercises comments). -/
def holesizeAt (r : List Char) : Option ((List Char × Char × List Char) × List Char) :=
  let r1 := r.dropWhile isSpaceCh
  if liStarts (lit "Holesize ") r1 then
    let r2 := r1.drop 9
    let dsA := r2.takeWhile isDigitCh
    if dsA = [] then none
    else
      match r2.drop dsA.length with
      | _ :: r3 =>
          let r4 := r3.dropWhile isSpaceCh
          match r4 with
          | '=' :: r5 =>
              let r6 := r5.dropWhile isSpaceCh
              let ds1 := r6.takeWhile isDigitCh
              if ds1 = [] then none
              else
                match r6.drop ds1.length with
                | c :: r7 =>
                    let ds2 := r7.takeWhile isDigitCh
                    if ds2 = [] then none
                    else
                      let tail := r7.drop ds2.length
                      match lastOccTail 'M' tail with
                      | none => none
                      | some _ =>
                          if containsTok (lit "MILS") tail then
                            some ((ds1, c, ds2), lit "MILS")
                          else if containsTok (lit "MM") tail then
                            some ((ds1, c, ds2), lit "MM")
                          else none
                | [] => none
          | _ => none
      | [] => none
  else none

def toolUnitsMatch : List Char → Option ((List Char × Char × List Char) × List Char)
  | [] => none
  | ';' :: rest =>
      match holesizeAt rest with
      | some m => some m
      | none => toolUnitsMatch rest
  | _ :: rest => toolUnitsMatch rest

/-- `^;\s*(?:FILE_FORMAT)?(?:Format)?[=|:]\s*(\d+)[:|.](\d+).*$`
(`altium_format`). -/
def altiumMatch (l : List Char) : Option (List Char × List Char) :=
  match l with
  | ';' :: r =>
      let r1 := r.dropWhile isSpaceCh
      let r2 := if liStarts (lit "FILE_FORMAT") r1 then r1.drop 11 else r1
      let r3 := if liStarts (lit "Format") r2 then r2.drop 6 else r2
      match r3 with
      | c :: r4 =>
          if c = '=' || c = '|' || c = ':' then
            let r5 := r4.dropWhile isSpaceCh
            let ds1 := r5.takeWhile isDigitCh
            if ds1 = [] then none
            else
              match r5.drop ds1.length with
              | c2 :: r6 =>
                  if c2 = ':' || c2 = '|' || c2 = '.' then
                    let ds2 := r6.takeWhile isDigitCh
                    if ds2 = [] then none else some (ds1, ds2)
                  else none
              | [] => none
          else none
      | [] => none
  | _ => none

/-! ### Data model (`Excellon.__init__` attributes) -/

/-- Opaque solid-geometry values of the external library:
`Point.buffer`, `LineString.buffer` and `shapely.affinity.scale`. -/
inductive Geom where
  | ptBuf (p : ℚ × ℚ) (r : ℚ) (segs : ℕ)
  | segBuf (a b : ℚ × ℚ) (r : ℚ) (segs : ℕ)
  | affScaled (xf yf : ℚ) (origin : ℚ × ℚ) (g : Geom)
deriving DecidableEq, Repr

/-- One entry of `self.tools`: diameter `C` and per-tool geometry list. -/
structure Tool where
  C : ℚ
  solid : List Geom
deriving DecidableEq, Repr

/-- One entry of `self.drills`; the tool reference `""` is `none`. -/
structure Drill where
  point : ℚ × ℚ
  tool : Option ℕ
deriving DecidableEq, Repr

/-- One entry of `self.slots`. -/
structure Slot where
  start : ℚ × ℚ
  stop : ℚ × ℚ
  tool : Option ℕ
deriving DecidableEq, Repr

/-- Persistent state of the `Excellon` object. -/
structure Doc where
  tools : List (ℕ × Tool)
  drills : List Drill
  slots : List Slot
  solid_geometry : List Geom
  units : Units
  zeros : Option (List Char)
  fmt_upper_in : ℕ
  fmt_lower_in : ℕ
  fmt_upper_mm : ℕ
  fmt_lower_mm : ℕ
  excellon_format : Option (ℕ × ℕ)
  excellon_units : List Char
  diameterless : Bool
  toolless_diam : ℚ
  geo_steps_per_circle : ℕ
  excellon_drills : Option Bool
  routing_flag : ℕ
  match_routing_start : Option Unit
  match_routing_stop : Option Unit
  file_units_factor : Option ℚ
  warnings : ℕ
deriving DecidableEq, Repr

/-- `self.tools[k] = v`: insert or overwrite, keeping insertion order. -/
def updTool : List (ℕ × Tool) → ℕ → Tool → List (ℕ × Tool)
  | [], k, t => [(k, t)]
  | (k', t') :: rest, k, t =>
      if k' = k then (k, t) :: rest else (k', t') :: updTool rest k t

/-- `self.tools[k]` lookup. -/
def lookupT : List (ℕ × Tool) → ℕ → Option Tool
  | [], _ => none
  | (k', t') :: rest, k => if k' = k then some t' else lookupT rest k

/-- `self.tools[k]['solid_geometry'].append(g)`. -/
def appendToolGeo : List (ℕ × Tool) → ℕ → Geom → List (ℕ × Tool)
  | [], _, _ => []
  | (k', t') :: rest, k, g =>
      if k' = k then (k', { t' with solid := t'.solid ++ [g] }) :: rest
      else (k', t') :: appendToolGeo rest k g

/-- The per-tool geometry clearing loop at the head of `create_geometry`. -/
def clearTools (ts : List (ℕ × Tool)) : List (ℕ × Tool) :=
  ts.map (fun kt => (kt.1, { kt.2 with solid := [] }))

/-- Names and diameters of a tool table, in order. -/
def diasOf (ts : List (ℕ × Tool)) : List (ℕ × ℚ) := ts.map (fun kt => (kt.1, kt.2.C))

/-- Diameters of the tool table, in order. -/
def toolDias (d : Doc) : List (ℕ × ℚ) := diasOf d.tools

/-! ### `parse_number` -/

/-- `self.zeros == "L" or self.zeros == "LZ"`. -/
def isLeading (z : Option (List Char)) : Bool :=
  z = some ['L'] || z = some ['L', 'Z']

/-- The format digit count for the current unit system
(`self.excellon_format_upper_in` / `..._mm` selected by `self.units`). -/
def upperDigits (d : Doc) : ℕ :=
  if d.units = Units.IN then d.fmt_upper_in else d.fmt_upper_mm

def lowerDigits (d : Doc) : ℕ :=
  if d.units = Units.IN then d.fmt_lower_in else d.fmt_lower_mm

/-- `Excellon.parse_number`: decode a coordinate token without a period.
`none` embeds the `return None` of the exception handler (a `float`
failure on an empty or malformed token).  The leading-zeros split is that
of `leadingzeros_re` (`^[-\+]?(0*)(\d*)`). -/
def parse_number (d : Doc) (s : List Char) : Option ℚ :=
  let body := (splitSign s).2
  let zchars := body.takeWhile (fun c => c = '0')
  let sig := (body.drop zchars.length).takeWhile isDigitCh
  let nr_length := zchars.length + sig.length
  match floatLit s with
  | none => none
  | some v =>
      if isLeading d.zeros then
        some (qdiv v (pow10 ((nr_length : ℤ) - (upperDigits d : ℤ))))
      else
        some (qdiv v (pow10 (lowerDigits d)))

/-! ### `create_geometry` -/

/-- The drill loop of `create_geometry`.  A drill with the empty tool
reference is skipped with a warning; a missing tool key raises `KeyError`,
which reaches the outer handler: the loop stops and the flag is `true`. -/
def cgDrills (d : Doc) : List Drill → Doc × Bool
  | [] => (d, false)
  | dr :: rest =>
      match dr.tool with
      | none => cgDrills { d with warnings := d.warnings + 1 } rest
      | some tid =>
          match lookupT d.tools tid with
          | none => (d, true)
          | some t =>
              let poly := Geom.ptBuf dr.point (qdiv t.C 2) (d.geo_steps_per_circle / 4)
              cgDrills
                { d with
                  solid_geometry := d.solid_geometry ++ [poly]
                  tools := appendToolGeo d.tools tid poly } rest

/-- The slot loop of `create_geometry`.  Any unresolved tool reference
(including the empty one) raises `KeyError`: the loop stops, flag `true`. -/
def cgSlots (d : Doc) : List Slot → Doc × Bool
  | [] => (d, false)
  | sl :: rest =>
      match sl.tool with
      | none => (d, true)
      | some tid =>
          match lookupT d.tools tid with
          | none => (d, true)
          | some t =>
              let poly := Geom.segBuf sl.start sl.stop (qdiv t.C 2) (d.geo_steps_per_circle / 4)
              cgSlots
                { d with
                  solid_geometry := d.solid_geometry ++ [poly]
                  tools := appendToolGeo d.tools tid poly } rest

/-- `Excellon.create_geometry`: rebuild all solid geometry from the drill
and slot lists.  The `Bool` is `true` when the Python code would have hit
the outer `except` and returned `"fail"` (the partially updated object is
kept, as the mutations already performed persist). -/
def create_geometry (d : Doc) : Doc × Bool :=
  let d := { d with solid_geometry := ([] : List Geom), tools := clearTools d.tools }
  match cgDrills d d.drills with
  | (d', true) => (d', true)
  | (d', false) => cgSlots d' d.slots

/-! ### Transforms (`scale`, `convert_units`) -/

/-- `shapely.affinity.scale` on a point with the given origin. -/
def affPoint (xf yf : ℚ) (o : ℚ × ℚ) (p : ℚ × ℚ) : ℚ × ℚ :=
  (qadd o.1 (qmul xf (qsub p.1 o.1)), qadd o.2 (qmul yf (qsub p.2 o.2)))

/-- The per-drill rewrite of the `scale` loop. -/
def scaleDrill (xf yf : ℚ) (o : ℚ × ℚ) (dr : Drill) : Drill :=
  { dr with point := affPoint xf yf o dr.point }

/-- The per-slot rewrite of the `scale` loop (`stop` first, as in the
source). -/
def scaleSlot (xf yf : ℚ) (o : ℚ × ℚ) (sl : Slot) : Slot :=
  { sl with stop := affPoint xf yf o sl.stop, start := affPoint xf yf o sl.start }

/-- `Excellon.scale(xfactor, yfactor=None, point=None)`.  Progress
reporting is omitted; the trailing `create_geometry()` call is kept. -/
def scale (xfactor : ℚ) (yfactorO : Option ℚ) (pointO : Option (ℚ × ℚ)) (d : Doc) : Doc :=
  let yfactor := yfactorO.getD xfactor
  let o := pointO.getD (0, 0)
  if xfactor = 0 ∧ yfactor = 0 then d
  else
    let d := { d with drills := d.drills.map (scaleDrill xfactor yfactor o) }
    let d := { d with
      tools := d.tools.map (fun kt : ℕ × Tool =>
        (kt.1, { kt.2 with solid := kt.2.solid.map (Geom.affScaled xfactor yfactor o) })) }
    let d := { d with slots := d.slots.map (scaleSlot xfactor yfactor o) }
    (create_geometry d).1

/-- `Excellon.convert_units(units)`: scale by the unit ratio, multiply the
tool diameters and rebuild geometry. -/
def convert_units (u : Units) (d : Doc) : Doc :=
  let factor : ℚ :=
    if u = d.units then 1
    else if u = Units.MM then mkRat 254 10
    else mkRat 10 254
  let d := { d with units := u }
  let d := scale factor (some factor) none d
  let d := { d with file_units_factor := some factor }
  let d := { d with
    tools := d.tools.map (fun kt : ℕ × Tool => (kt.1, { kt.2 with C := qmul kt.2.C factor })) }
  (create_geometry d).1

/-! ### `parse_lines`: parser state and driver.

The local variables of `parse_lines` plus the object state make up
`PState`.  Python `None` is `none`; the integer `0` initial value of
`repeating_x`/`repeating_y` is `some 0` (truthiness of both is false). -/

structure PState where
  doc : Doc
  current_tool : Option ℕ
  in_header : Bool
  headerless : Bool
  current_x : Option ℚ
  current_y : Option ℚ
  slot_current_x : Option ℚ
  slot_current_y : Option ℚ
  name_tool : ℕ
  allegro_warning : Bool
  line_units_found : Bool
  line_units : List Char
  repeating_x : Option ℚ
  repeating_y : Option ℚ
  repeatNum : ℕ
  slot_start_x : Option ℚ
  slot_start_y : Option ℚ
deriving DecidableEq, Repr

/-- Outcome of `parse_lines`: a plain return, the G20/G21 dialect abort,
or an exception caught by the outer handler (`return "fail"`). -/
inductive PStatus where
  | ok
  | gcodeMark
  | fail
deriving DecidableEq, Repr

/-- Result of processing one line: go on, or return from `parse_lines`. -/
inductive StepRes where
  | cont (st : PState)
  | halt (st : PState) (status : PStatus)
deriving DecidableEq, Repr

/-- Python truthiness of the `repeating_x`/`repeating_y` variables
(`None` and `0` are falsy). -/
def truthyQ : Option ℚ → Bool
  | none => false
  | some v => v ≠ 0

/-- The `while repeat > 0` drill-repetition loop (`repeat` counts down;
an axis with a falsy `repeating` value keeps its previous coordinate). -/
def emitRepeat (n : ℕ) (x y cx cy : ℚ) (rx ry : Option ℚ) (tool : Option ℕ) : List Drill :=
  match n with
  | 0 => []
  | k + 1 =>
      let cx' := if truthyQ rx then qadd (qmul ((k + 1 : ℕ) : ℚ) x) (rx.getD 0) else cx
      let cy' := if truthyQ ry then qadd (qmul ((k + 1 : ℕ) : ℚ) y) (ry.getD 0) else cy
      ⟨(cx', cy'), tool⟩ :: emitRepeat k x y cx' cy' rx ry tool

/-- The units/format check at the bottom of the loop body (the copy that
sits outside the header block), and the final "Line ignored" case. -/
def unitsEffect (st : PState) (u : Units) (z : Option Char) (f : Option (ℕ × ℕ)) : PState :=
  let d := { st.doc with units := u, zeros := z.map (fun c => [c]), excellon_format := f }
  let d :=
    match f with
    | some uplo =>
        if u = Units.MM then { d with fmt_upper_mm := uplo.1, fmt_lower_mm := uplo.2 }
        else { d with fmt_upper_in := uplo.1, fmt_lower_in := uplo.2 }
    | none => d
  { st with doc := convert_units u d }

def unitsOutside (st : PState) (l : List Char) : StepRes :=
  match unitsMatch l with
  | some uzf => .cont (unitsEffect st uzf.1 uzf.2.1 uzf.2.2)
  | none => .cont st

/-- The shared tail of the two coordinate branches: routing start (`G00`),
routing stop (`G01`), then the drill append with repeat expansion.  The
code of lines 647-695 is duplicated verbatim at lines 727-776 of the
source; `fall` is what runs when no `continue` is reached. -/
def coordFinish (st : PState) (l : List Char) (x y : ℚ) (fall : PState → StepRes) : StepRes :=
  if containsTok (lit "G00") l then
    .cont { st with
      doc := { st.doc with
        match_routing_start := some ()
        excellon_drills := some false
        routing_flag := 0 }
      slot_start_x := some x
      slot_start_y := some y }
  else if st.doc.routing_flag = 0 ∧ containsTok (lit "G01") l then
    .cont { st with
      doc := { st.doc with
        match_routing_stop := some ()
        excellon_drills := some false
        routing_flag := 1
        slots := st.doc.slots ++
          [⟨(st.slot_start_x.getD 0, st.slot_start_y.getD 0), (x, y), st.current_tool⟩] } }
  else if st.doc.match_routing_start = none ∧ st.doc.match_routing_stop = none then
    if st.repeatNum = 0 then
      .cont { st with
        doc := { st.doc with
          excellon_drills := some true
          drills := st.doc.drills ++ [⟨(x, y), st.current_tool⟩] }
        repeating_x := some 0
        repeating_y := some 0 }
    else
      .cont { st with
        doc := { st.doc with
          drills := st.doc.drills ++
            emitRepeat st.repeatNum x y x y st.repeating_x st.repeating_y st.current_tool }
        repeatNum := 0
        repeating_x := some 0
        repeating_y := some 0 }
  else fall st

/-- One axis of the no-period coordinate branch: `(value, new repeating,
new current)`.  A missing group raises `TypeError` inside `parse_number`
(inherit, zero the repeating step); a present group always assigns. -/
def axisStep (doc : Doc) (cur : Option ℚ) (g : Option (List Char)) :
    Option ℚ × Option ℚ × Option ℚ :=
  match g with
  | none => (cur, some 0, cur)
  | some tok =>
      let v := parse_number doc tok
      (v, cur, v)

/-- One axis of the with-period coordinate branch; `.error` embeds an
uncaught `ValueError` from `float`. -/
def axisStepF (cur : Option ℚ) (g : Option (List Char)) :
    Except Unit (Option ℚ × Option ℚ × Option ℚ) :=
  match g with
  | none => .ok (cur, some 0, cur)
  | some tok =>
      match floatLit tok with
      | none => .error ()
      | some v => .ok (some v, cur, some v)

/-- The "Coordinates with period" branch (and the fall-through to the
outside-header units check and the ignored-line case). -/
def periodCheck (st : PState) (l : List Char) : StepRes :=
  match coordsPeriodMatch l with
  | none => unitsOutside st l
  | some g =>
      let st :=
        match repeatSearch l with
        | some n => { st with repeatNum := n }
        | none => st
      let st := { st with doc := { st.doc with excellon_drills := some true } }
      match axisStepF st.current_x g.1 with
      | .error _ => .halt st .fail
      | .ok ax =>
          let st := { st with current_x := ax.2.2, repeating_x := ax.2.1 }
          match axisStepF st.current_y g.2 with
          | .error _ => .halt st .fail
          | .ok ay =>
              let st := { st with current_y := ay.2.2, repeating_y := ay.2.1 }
              match ax.1, ay.1 with
              | some xv, some yv => coordFinish st l xv yv (fun s => unitsOutside s l)
              | _, _ => .cont st

/-- The "Coordinates without period" branch; falls through to the
with-period branch when no `continue` fires. -/
def noPeriodLine (st : PState) (l : List Char)
    (g : Option (List Char) × Option (List Char)) : StepRes :=
  let st :=
    match repeatSearch l with
    | some n => { st with repeatNum := n }
    | none => st
  let ax := axisStep st.doc st.current_x g.1
  let ay := axisStep st.doc st.current_y g.2
  let st := { st with
    current_x := ax.2.2
    current_y := ay.2.2
    repeating_x := ax.2.1
    repeating_y := ay.2.1 }
  match ax.1, ay.1 with
  | some xv, some yv => coordFinish st l xv yv (fun s => periodCheck s l)
  | _, _ => .cont st

/-- One axis of the G85 slot branch ( `(value, new slot_current)` ); a
missing group inherits the sticky slot position. -/
def slotAxis (doc : Doc) (cur : Option ℚ) (g : Option (List Char)) : Option ℚ × Option ℚ :=
  match g with
  | none => (cur, cur)
  | some tok =>
      let v := parse_number doc tok
      (v, v)

/-- Same for the with-period slot grammar; `.error` is an uncaught-in-the-
`try` exception, answered by `return` (`except Exception`). -/
def slotAxisF (cur : Option ℚ) (g : Option (List Char)) : Except Unit (Option ℚ × Option ℚ) :=
  match g with
  | none => .ok (cur, cur)
  | some tok =>
      match floatLit tok with
      | none => .error ()
      | some v => .ok (some v, some v)

/-- The drilled-slot (`G85`) branch, `a`/`b` being the coordinate groups
left and right of the token.  The start coordinates are written to the
shared `slot_start_x`/`slot_start_y` locals that the `G00`/`G01` rout
mechanism also uses, including on the partial-progress exit paths. -/
def slotsLine (st : PState) (a b : List Char) : StepRes :=
  let st := { st with doc := { st.doc with excellon_drills := some false } }
  match coordsNoPeriodMatch a with
  | some g =>
      let r1 := slotAxis st.doc st.slot_current_x g.1
      let st := { st with slot_current_x := r1.2, slot_start_x := r1.1 }
      let r2 := slotAxis st.doc st.slot_current_y g.2
      let st := { st with slot_current_y := r2.2, slot_start_y := r2.1 }
      match coordsNoPeriodMatch b with
      | none => .halt st .ok
      | some h =>
          let r3 := slotAxis st.doc st.slot_current_x h.1
          let st := { st with slot_current_x := r3.2 }
          let r4 := slotAxis st.doc st.slot_current_y h.2
          let st := { st with slot_current_y := r4.2 }
          match r1.1, r2.1, r3.1, r4.1 with
          | some sx, some sy, some tx, some ty =>
              .cont { st with doc := { st.doc with
                slots := st.doc.slots ++ [⟨(sx, sy), (tx, ty), st.current_tool⟩] } }
          | _, _, _, _ => .cont st
  | none =>
      match coordsPeriodMatch a with
      | none => .cont st
      | some g =>
          match slotAxisF st.slot_current_x g.1 with
          | .error _ => .halt st .ok
          | .ok r1 =>
              let st := { st with slot_current_x := r1.2, slot_start_x := r1.1 }
              match slotAxisF st.slot_current_y g.2 with
              | .error _ => .halt st .ok
              | .ok r2 =>
                  let st := { st with slot_current_y := r2.2, slot_start_y := r2.1 }
                  match coordsPeriodMatch b with
                  | none => .halt st .ok
                  | some h =>
                      match slotAxisF st.slot_current_x h.1 with
                      | .error _ => .halt st .ok
                      | .ok r3 =>
                          let st := { st with slot_current_x := r3.2 }
                          match slotAxisF st.slot_current_y h.2 with
                          | .error _ => .halt st .ok
                          | .ok r4 =>
                              let st := { st with slot_current_y := r4.2 }
                              match r1.1, r2.1, r3.1, r4.1 with
                              | some sx, some sy, some tx, some ty =>
                                  .cont { st with doc := { st.doc with
                                    slots := st.doc.slots ++
                                      [⟨(sx, sy), (tx, ty), st.current_tool⟩] } }
                              | _, _, _, _ => .cont st

/-- The body tool-change branch, including the headerless inline tool
definition with its diameterless fallback heuristic. -/
def toolChange (st : PState) (l : List Char) (ds : List Char) : PState :=
  let ct := digitsVal ds
  let st := { st with current_tool := some ct }
  if st.headerless then
    match toolsetHlMatch l with
    | none => st
    | some dg =>
        let name := digitsVal dg.1
        match dg.2.bind floatLit with
        | some dv =>
            { st with doc := { st.doc with tools := updTool st.doc.tools name ⟨dv, []⟩ } }
        | none =>
            let diam : ℚ :=
              if st.doc.excellon_units = lit "MM" then
                qadd st.doc.toolless_diam (qdiv (qsub (ct : ℚ) 1) 100)
              else
                qdiv (qadd st.doc.toolless_diam (qdiv (qsub (ct : ℚ) 1) 100)) (mkRat 254 10)
            { st with doc := { st.doc with
              diameterless := true
              warnings := st.doc.warnings + 1
              tools := updTool st.doc.tools name ⟨diam, []⟩ } }
  else st

/-- The body block (`if not in_header`). -/
def bodyLine (st : PState) (l : List Char) : StepRes :=
  match toolselMatch l with
  | some ds => .cont (toolChange st l ds)
  | none =>
      if st.allegro_warning ∧ (absincMatch l ∨ stopMatch l) then
        .cont { st with name_tool := st.name_tool + 1, current_tool := some (st.name_tool + 1) }
      else
        match slotsMatch l with
        | some ab => slotsLine st ab.1 ab.2
        | none =>
            match coordsNoPeriodMatch l with
            | some g => noPeriodLine st l g
            | none => periodCheck st l

/-- The header block (`if in_header`).  A header tool definition whose
diameter lookahead is absent or empty makes `float` raise outside any
local handler: the parse fails. -/
def headerLine (st : PState) (l : List Char) : StepRes :=
  match toolsetMatch l with
  | some dg =>
      match dg.2 with
      | none => .halt st .fail
      | some tok =>
          match floatLit tok with
          | none => .halt st .fail
          | some v =>
              .cont { st with doc := { st.doc with
                tools := updTool st.doc.tools (digitsVal dg.1) ⟨v, []⟩ } }
  | none =>
      match unitsMatch l with
      | some uzf => .cont (unitsEffect st uzf.1 uzf.2.1 uzf.2.2)
      | none =>
          if containsTok (lit "INCH") l then
            .cont { st with line_units := lit "IN", doc := convert_units Units.IN st.doc }
          else if containsTok (lit "METRIC") l then
            .cont { st with line_units := lit "MM", doc := convert_units Units.MM st.doc }
          else
            match ltzMatch l with
            | some z => .cont { st with doc := { st.doc with zeros := some z } }
            | none => unitsOutside st l

/-- The `M71`/`M72` check and the body/header dispatch below it. -/
def afterComm (st : PState) (l : List Char) : StepRes :=
  match measMatch l with
  | some u => .cont { st with doc := convert_units u { st.doc with units := u } }
  | none => if st.in_header = false then bodyLine st l else headerLine st l

/-- The end-of-header branch (`M95`/`%`), with the headerless fallback. -/
def hendEffect (st : PState) : PState :=
  let st :=
    if st.in_header = false ∨ st.doc.tools = [] then
      let st := { st with headerless := true }
      if st.doc.excellon_units = lit "INCH" then
        { st with doc := convert_units Units.IN st.doc }
      else if st.doc.excellon_units = lit "METRIC" then
        { st with doc := convert_units Units.MM st.doc }
      else st
    else st
  let st := { st with in_header := false }
  if st.allegro_warning then { st with name_tool := 0 } else st

/-- The comment branch: Allegro hole-size entries, the Altium/Sprint
format comment, else fall through (note: past the header-end check). -/
def commentLine (st : PState) (l : List Char) : StepRes :=
  match toolUnitsMatch l with
  | some gm =>
      let st :=
        if st.line_units_found = false then
          { st with
            line_units_found := true
            line_units := gm.2
            doc := convert_units (if gm.2 = lit "MILS" then Units.IN else Units.MM) st.doc }
        else st
      match floatLit (gm.1.1 ++ gm.1.2.1 :: gm.1.2.2) with
      | none => .halt st .fail
      | some v =>
          let nt := st.name_tool + 1
          let cval := if st.line_units = lit "MILS" then qdiv v 1000 else v
          .cont { st with
            name_tool := nt
            doc := { st.doc with tools := updTool st.doc.tools nt ⟨cval, []⟩ } }
  | none =>
      match altiumMatch l with
      | some dd =>
          .cont { st with doc := { st.doc with
            fmt_upper_mm := digitsVal dd.1
            fmt_lower_mm := digitsVal dd.2
            fmt_upper_in := digitsVal dd.1
            fmt_lower_in := digitsVal dd.2 } }
      | none => afterComm st l

/-- Processing of one already-stripped line, in the priority order of the
source: G-code detection, header begin (plain and Allegro), comments,
header end, `M71`/`M72`, then the body/header blocks. -/
def parse_line (st : PState) (l : List Char) : StepRes :=
  if gcodeMatch l then .halt st .gcodeMark
  else if hbeginMatch l then .cont { st with in_header := true, headerless := false }
  else if allegroHbMatch l then .cont { st with in_header := true, allegro_warning := true }
  else if commMatch l then commentLine st l
  else if hendMatch l then .cont (hendEffect st)
  else afterComm st l

/-- `Excellon.parse_lines`: process every line in order, stopping on an
early return. -/
def parse_lines : List (List Char) → PState → PState × PStatus
  | [], st => (st, .ok)
  | l :: rest, st =>
      match parse_line st (stripLine l) with
      | .halt st' status => (st', status)
      | .cont st' => parse_lines rest st'

/-- The object state after `Excellon.__init__` with the class defaults
(`zeros="L"`, inch format 2.4, metric format 3.3, 64 circle steps), and
the application-supplied initial unit system. -/
def initDoc (u : Units) : Doc where
  tools := []
  drills := []
  slots := []
  solid_geometry := []
  units := u
  zeros := some ['L']
  fmt_upper_in := 2
  fmt_lower_in := 4
  fmt_upper_mm := 3
  fmt_lower_mm := 3
  excellon_format := none
  excellon_units := lit "INCH"
  diameterless := false
  toolless_diam := 1
  geo_steps_per_circle := 64
  excellon_drills := none
  routing_flag := 1
  match_routing_start := none
  match_routing_stop := none
  file_units_factor := none
  warnings := 0

/-- The local-variable state at the top of `parse_lines`. -/
def initState (d : Doc) : PState where
  doc := d
  current_tool := none
  in_header := false
  headerless := false
  current_x := none
  current_y := none
  slot_current_x := none
  slot_current_y := none
  name_tool := 0
  allegro_warning := false
  line_units_found := false
  line_units := []
  repeating_x := some 0
  repeating_y := some 0
  repeatNum := 0
  slot_start_x := none
  slot_start_y := none

/-! ### Preservation lemmas for the geometry and transform operations -/

theorem diasOf_appendToolGeo (ts : List (ℕ × Tool)) (k : ℕ) (g : Geom) :
    diasOf (appendToolGeo ts k g) = diasOf ts := by
  induction ts with
  | nil => rfl
  | cons kt rest ih =>
      obtain ⟨k', t'⟩ := kt
      by_cases h : k' = k
      · simp [appendToolGeo, diasOf, h]
      · simp [appendToolGeo, diasOf, h]
        simpa [diasOf] using ih

theorem diasOf_clearTools (ts : List (ℕ × Tool)) : diasOf (clearTools ts) = diasOf ts := by
  simp [diasOf, clearTools, List.map_map]

/-- The drill loop of `create_geometry` only touches `solid_geometry`,
`tools` (geometry lists) and `warnings`. -/
theorem cgDrills_pres (l : List Drill) (d : Doc) :
    (cgDrills d l).1.drills = d.drills ∧ (cgDrills d l).1.slots = d.slots ∧
    diasOf (cgDrills d l).1.tools = diasOf d.tools ∧
    (cgDrills d l).1.units = d.units ∧ (cgDrills d l).1.zeros = d.zeros ∧
    (cgDrills d l).1.fmt_upper_in = d.fmt_upper_in ∧
    (cgDrills d l).1.fmt_lower_in = d.fmt_lower_in ∧
    (cgDrills d l).1.fmt_upper_mm = d.fmt_upper_mm ∧
    (cgDrills d l).1.fmt_lower_mm = d.fmt_lower_mm ∧
    (cgDrills d l).1.match_routing_start = d.match_routing_start ∧
    (cgDrills d l).1.match_routing_stop = d.match_routing_stop ∧
    (cgDrills d l).1.routing_flag = d.routing_flag := by
  induction l generalizing d with
  | nil => exact ⟨rfl, rfl, rfl, rfl, rfl, rfl, rfl, rfl, rfl, rfl, rfl, rfl⟩
  | cons dr rest ih =>
      rcases htool : dr.tool with _ | tid
      · have h := ih { d with warnings := d.warnings + 1 }
        simp only [cgDrills, htool]
        exact h
      · rcases hlk : lookupT d.tools tid with _ | t
        · simp [cgDrills, htool, hlk]
        · have h := ih { d with
            solid_geometry :=
              d.solid_geometry ++ [Geom.ptBuf dr.point (qdiv t.C 2) (d.geo_steps_per_circle / 4)]
            tools := appendToolGeo d.tools tid
              (Geom.ptBuf dr.point (qdiv t.C 2) (d.geo_steps_per_circle / 4)) }
          simp only [cgDrills, htool, hlk]
          simpa [diasOf_appendToolGeo] using h

/-- Same for the slot loop. -/
theorem cgSlots_pres (l : List Slot) (d : Doc) :
    (cgSlots d l).1.drills = d.drills ∧ (cgSlots d l).1.slots = d.slots ∧
    diasOf (cgSlots d l).1.tools = diasOf d.tools ∧
    (cgSlots d l).1.units = d.units ∧ (cgSlots d l).1.zeros = d.zeros ∧
    (cgSlots d l).1.fmt_upper_in = d.fmt_upper_in ∧
    (cgSlots d l).1.fmt_lower_in = d.fmt_lower_in ∧
    (cgSlots d l).1.fmt_upper_mm = d.fmt_upper_mm ∧
    (cgSlots d l).1.fmt_lower_mm = d.fmt_lower_mm ∧
    (cgSlots d l).1.match_routing_start = d.match_routing_start ∧
    (cgSlots d l).1.match_routing_stop = d.match_routing_stop ∧
    (cgSlots d l).1.routing_flag = d.routing_flag := by
  induction l generalizing d with
  | nil => exact ⟨rfl, rfl, rfl, rfl, rfl, rfl, rfl, rfl, rfl, rfl, rfl, rfl⟩
  | cons sl rest ih =>
      rcases htool : sl.tool with _ | tid
      · simp [cgSlots, htool]
      · rcases hlk : lookupT d.tools tid with _ | t
        · simp [cgSlots, htool, hlk]
        · have h := ih { d with
            solid_geometry :=
              d.solid_geometry ++
                [Geom.segBuf sl.start sl.stop (qdiv t.C 2) (d.geo_steps_per_circle / 4)]
            tools := appendToolGeo d.tools tid
              (Geom.segBuf sl.start sl.stop (qdiv t.C 2) (d.geo_steps_per_circle / 4)) }
          simp only [cgSlots, htool, hlk]
          simpa [diasOf_appendToolGeo] using h

/-- `create_geometry` rebuilds geometry but leaves the drill list, slot
list, tool diameters, formats and routing state alone. -/
theorem create_geometry_pres (d : Doc) :
    (create_geometry d).1.drills = d.drills ∧ (create_geometry d).1.slots = d.slots ∧
    diasOf (create_geometry d).1.tools = diasOf d.tools ∧
    (create_geometry d).1.units = d.units ∧ (create_geometry d).1.zeros = d.zeros ∧
    (create_geometry d).1.fmt_upper_in = d.fmt_upper_in ∧
    (create_geometry d).1.fmt_lower_in = d.fmt_lower_in ∧
    (create_geometry d).1.fmt_upper_mm = d.fmt_upper_mm ∧
    (create_geometry d).1.fmt_lower_mm = d.fmt_lower_mm ∧
    (create_geometry d).1.match_routing_start = d.match_routing_start ∧
    (create_geometry d).1.match_routing_stop = d.match_routing_stop ∧
    (create_geometry d).1.routing_flag = d.routing_flag := by
  have hbase :
      diasOf (clearTools d.tools) = diasOf d.tools := diasOf_clearTools d.tools
  simp only [create_geometry]
  rcases hdr : cgDrills
      { d with solid_geometry := ([] : List Geom), tools := clearTools d.tools } d.drills
    with ⟨d1, b⟩
  have h1 := cgDrills_pres d.drills
      { d with solid_geometry := ([] : List Geom), tools := clearTools d.tools }
  rw [hdr] at h1
  cases b
  · have h2 := cgSlots_pres d.slots d1
    simp only []
    refine ⟨?_, ?_, ?_, ?_, ?_, ?_, ?_, ?_, ?_, ?_, ?_, ?_⟩ <;>
      simp_all
  · simp only []
    refine ⟨?_, ?_, ?_, ?_, ?_, ?_, ?_, ?_, ?_, ?_, ?_, ?_⟩ <;> simp_all

/-- `scale` with a factor pair that is not both zero: explicit form of
the rewritten drill, tool and slot data. -/
theorem scale_eq (xfactor : ℚ) (yfactorO : Option ℚ) (pointO : Option (ℚ × ℚ)) (d : Doc)
    (h : ¬(xfactor = 0 ∧ yfactorO.getD xfactor = 0)) :
    (scale xfactor yfactorO pointO d).drills =
      d.drills.map (scaleDrill xfactor (yfactorO.getD xfactor) (pointO.getD (0, 0))) ∧
    (scale xfactor yfactorO pointO d).slots =
      d.slots.map (scaleSlot xfactor (yfactorO.getD xfactor) (pointO.getD (0, 0))) ∧
    toolDias (scale xfactor yfactorO pointO d) = toolDias d := by
  simp only [scale, if_neg h]
  constructor
  · exact (create_geometry_pres _).1
  constructor
  · rw [(create_geometry_pres _).2.1]
  · show diasOf _ = diasOf d.tools
    rw [(create_geometry_pres _).2.2.1]
    simp [diasOf, List.map_map]

/-- `scale` never changes the tool diameters, whatever the factors. -/
theorem scale_toolDias (xfactor : ℚ) (yfactorO : Option ℚ) (pointO : Option (ℚ × ℚ)) (d : Doc) :
    toolDias (scale xfactor yfactorO pointO d) = toolDias d := by
  by_cases h : xfactor = 0 ∧ yfactorO.getD xfactor = 0
  · obtain ⟨h1, h2⟩ := h
    subst h1
    simp [scale, h2]
  · exact (scale_eq xfactor yfactorO pointO d h).2.2

/-! ### Number-decoder lemmas -/

theorem takeWhile_of_all {p : Char → Bool} :
    ∀ (l : List Char), (∀ c ∈ l, p c = true) → l.takeWhile p = l
  | [], _ => rfl
  | c :: t, h => by
      have hc := h c (List.mem_cons_self c t)
      have ih := takeWhile_of_all t (fun a ha => h a (List.mem_cons_of_mem c ha))
      simp [List.takeWhile_cons, hc, ih]

theorem splitSign_digit (c : Char) (t : List Char) (hc : isDigitCh c = true) :
    splitSign (c :: t) = (1, c :: t) := by
  unfold splitSign
  split
  · rename_i h
    injection h with h1 h2
    subst h1
    simp [isDigitCh] at hc
  · rename_i h
    injection h with h1 h2
    subst h1
    simp [isDigitCh] at hc
  · rfl

/-- A sign for a decoded token: `none` bare, `some false` a `+`,
`some true` a `-`. -/
def signTok : Option Bool → List Char → List Char
  | none, ds => ds
  | some false, ds => '+' :: ds
  | some true, ds => '-' :: ds

def signVal : Option Bool → ℚ
  | some true => -1
  | _ => 1

theorem splitSign_signTok (sg : Option Bool) (ds : List Char) (h1 : ds ≠ [])
    (h2 : ∀ c ∈ ds, isDigitCh c = true) :
    splitSign (signTok sg ds) = (signVal sg, ds) := by
  cases sg with
  | none =>
      cases ds with
      | nil => exact absurd rfl h1
      | cons c t => exact splitSign_digit c t (h2 c (List.mem_cons_self c t))
  | some b => cases b <;> rfl

theorem floatLit_signTok (sg : Option Bool) (ds : List Char) (h1 : ds ≠ [])
    (h2 : ∀ c ∈ ds, isDigitCh c = true) :
    floatLit (signTok sg ds) = some (signVal sg * (digitsVal ds : ℚ)) := by
  have hsplit := splitSign_signTok sg ds h1 h2
  have hds1 : ds.takeWhile isDigitCh = ds := takeWhile_of_all ds h2
  simp [floatLit, hsplit, hds1, List.drop_length, h1, qmul_eq]

/-! ### The claims -/

/-- C10: calling `scale` with x factor `0` and y factor `0` — including
`scale 0` with the y factor defaulted — returns immediately and leaves
the whole document (drills, slots, tool diameters, stored geometry)
unchanged, rather than collapsing the geometry to the origin. -/
theorem c10_scale_zero_noop (d : Doc) :
    scale 0 none none d = d ∧ scale 0 (some 0) none d = d := by
  constructor <;> simp [scale]

/-- C7: a parse whose first line is `G21` (or `G20`) aborts at once as a
dialect mismatch (`gcodeMark`, the `[ERROR_NOTCL] This is GCODE mark`
path): whatever follows, the state still has no drill, no slot and no
tool, and — the parse being a total function into a status — no
exception escapes. -/
theorem c7_gcode_abort (u : Units) (rest : List (List Char)) :
    parse_lines (lit "G21" :: rest) (initState (initDoc u)) =
      (initState (initDoc u), PStatus.gcodeMark) ∧
    parse_lines (lit "G20" :: rest) (initState (initDoc u)) =
      (initState (initDoc u), PStatus.gcodeMark) ∧
    (initState (initDoc u)).doc.drills = [] ∧
    (initState (initDoc u)).doc.slots = [] ∧
    (initState (initDoc u)).doc.tools = [] :=
  ⟨rfl, rfl, rfl, rfl, rfl⟩

/-- C6: the body line `X010000Y020000G85X030000Y040000`, parsed under
metric units, format 3.3, leading-zero suppression, appends exactly one
slot from `(10, 20)` to `(30, 40)` (each 6-digit token decoded with
divisor `10^(6-3) = 1000`), and the parse returns normally. -/
theorem c6_g85_slot :
    (parse_lines [lit "X010000Y020000G85X030000Y040000"]
        (initState (initDoc Units.MM))).1.doc.slots =
      [⟨(10, 20), (30, 40), none⟩] ∧
    (parse_lines [lit "X010000Y020000G85X030000Y040000"]
        (initState (initDoc Units.MM))).2 = PStatus.ok := by
  constructor <;> decide

/-- The document of the C2 counterexample: a single tool of diameter 2. -/
def c2doc : Doc := { initDoc Units.MM with tools := [(1, ⟨2, []⟩)] }

/-- C2 counterexample: `scale 3` leaves the diameter of tool 1 at 2,
whereas the claim demands it become `2 × 3`. -/
theorem c2_counterexample :
    toolDias (scale 3 none none c2doc) = [(1, 2)] ∧ ¬((2 : ℚ) = 2 * 3) := by
  constructor
  · rfl
  · norm_num

/-- C2 (amended): for every document and every scale factor, `scale`
leaves every tool diameter stored in the tool table unchanged; for a
nonzero factor it rewrites every drill point and every slot start/stop
(and re-synthesizes the geometry via its final `create_geometry()`
call), while with the factor zero (y defaulted) it returns the document
unchanged. It is `convert_units` that multiplies diameters. -/
theorem c2_scale_keeps_diameters (d : Doc) (xf : ℚ) :
    toolDias (scale xf none none d) = toolDias d ∧
    (xf ≠ 0 →
      (scale xf none none d).drills = d.drills.map (scaleDrill xf xf (0, 0)) ∧
      (scale xf none none d).slots = d.slots.map (scaleSlot xf xf (0, 0))) := by
  by_cases hxf : xf = 0
  · subst hxf
    exact ⟨by simp [scale], fun h => absurd rfl h⟩
  · have h : ¬(xf = 0 ∧ (none : Option ℚ).getD xf = 0) := by simp [hxf]
    have he := scale_eq xf none none d h
    exact ⟨he.2.2, fun _ => ⟨by simpa using he.1, by simpa using he.2.1⟩⟩

theorem c2_witness :
    toolDias (scale 3 none none c2doc) = toolDias c2doc ∧
    ((3 : ℚ) ≠ 0 ∧
      (scale 3 none none c2doc).drills = c2doc.drills.map (scaleDrill 3 3 (0, 0))) :=
  ⟨(c2_scale_keeps_diameters c2doc 3).1,
    by norm_num, ((c2_scale_keeps_diameters c2doc 3).2 (by norm_num)).1⟩

/-- A concrete document with a drill, a slot and a tool, for witnesses. -/
def exDoc : Doc :=
  { initDoc Units.MM with
    tools := [(1, ⟨2, []⟩)]
    drills := [⟨(3, 4), some 1⟩]
    slots := [⟨(1, 2), (3, 4), some 1⟩] }

theorem map_comp_cancel {α : Type} (g h : α → α) (l : List α) (hgh : ∀ a, g (h a) = a) :
    (l.map h).map g = l := by
  induction l with
  | nil => rfl
  | cons a t ih => simp [hgh, ih]

/-- C8: for every document and nonzero factor `f`, `scale f` followed by
`scale (1/f)` reproduces every drill point, every slot start/stop and
every tool diameter exactly (the embedding works in exact rational
arithmetic). -/
theorem c8_scale_roundtrip (d : Doc) (f : ℚ) (hf : f ≠ 0) :
    (scale (1 / f) none none (scale f none none d)).drills = d.drills ∧
    (scale (1 / f) none none (scale f none none d)).slots = d.slots ∧
    toolDias (scale (1 / f) none none (scale f none none d)) = toolDias d := by
  have hf' : (1 : ℚ) / f ≠ 0 := one_div_ne_zero hf
  have h1 : ¬(f = 0 ∧ (none : Option ℚ).getD f = 0) := fun hc => hf hc.1
  have h2 : ¬(1 / f = 0 ∧ (none : Option ℚ).getD (1 / f) = 0) := fun hc => hf' hc.1
  have e1 := scale_eq f none none d h1
  have e2 := scale_eq (1 / f) none none (scale f none none d) h2
  have hpt : ∀ p : ℚ × ℚ,
      affPoint (1 / f) (1 / f) (0, 0) (affPoint f f (0, 0) p) = p := by
    rintro ⟨x, y⟩
    simp only [affPoint, Prod.mk.injEq, qadd_eq, qmul_eq, qsub_eq]
    constructor <;> field_simp
  have hdr : ∀ dr : Drill,
      scaleDrill (1 / f) ((none : Option ℚ).getD (1 / f)) ((none : Option (ℚ × ℚ)).getD (0, 0))
        (scaleDrill f ((none : Option ℚ).getD f) ((none : Option (ℚ × ℚ)).getD (0, 0)) dr) = dr := by
    intro dr
    show Drill.mk (affPoint (1 / f) (1 / f) (0, 0) (affPoint f f (0, 0) dr.point)) dr.tool = dr
    rw [hpt]
  have hsl : ∀ sl : Slot,
      scaleSlot (1 / f) ((none : Option ℚ).getD (1 / f)) ((none : Option (ℚ × ℚ)).getD (0, 0))
        (scaleSlot f ((none : Option ℚ).getD f) ((none : Option (ℚ × ℚ)).getD (0, 0)) sl) = sl := by
    intro sl
    show Slot.mk (affPoint (1 / f) (1 / f) (0, 0) (affPoint f f (0, 0) sl.start))
      (affPoint (1 / f) (1 / f) (0, 0) (affPoint f f (0, 0) sl.stop)) sl.tool = sl
    rw [hpt, hpt]
  refine ⟨?_, ?_, ?_⟩
  · rw [e2.1, e1.1]
    exact map_comp_cancel _ _ _ hdr
  · rw [e2.2.1, e1.2.1]
    exact map_comp_cancel _ _ _ hsl
  · rw [e2.2.2, e1.2.2]

theorem c8_witness :
    (scale (1 / 2) none none (scale 2 none none exDoc)).drills = exDoc.drills ∧
    (scale (1 / 2) none none (scale 2 none none exDoc)).slots = exDoc.slots ∧
    toolDias (scale (1 / 2) none none (scale 2 none none exDoc)) = toolDias exDoc :=
  c8_scale_roundtrip exDoc 2 (by norm_num)

theorem drop_takeWhile_length (p : Char → Bool) :
    ∀ l : List Char, l.drop (l.takeWhile p).length = l.dropWhile p
  | [] => rfl
  | c :: t => by
      by_cases hc : p c
      · simp [List.takeWhile_cons, List.dropWhile_cons, hc, drop_takeWhile_length p t]
      · simp [List.takeWhile_cons, List.dropWhile_cons, hc]

theorem takeWhile_dropWhile_length (p : Char → Bool) (l : List Char) :
    (l.takeWhile p).length + (l.dropWhile p).length = l.length := by
  conv_rhs => rw [← List.takeWhile_append_dropWhile p l]
  rw [List.length_append]

theorem pow10_eq_zpow : ∀ e : ℤ, pow10 e = (10 : ℚ) ^ e
  | Int.ofNat n => by
      rw [pow10, if_pos (by exact Int.ofNat_nonneg n)]
      push_cast
      have ht : (Int.ofNat n).toNat = n := rfl
      rw [ht]
      exact (zpow_natCast (10 : ℚ) n).symm
  | Int.negSucc n => by
      rw [pow10, if_neg (by exact not_le.mpr (Int.negSucc_lt_zero n)), Rat.mkRat_eq_div]
      push_cast
      rw [zpow_negSucc, one_div]
      have ht : (-Int.negSucc n).toNat = n + 1 := rfl
      rw [ht]

/-- C3: `parse_number` on an optionally signed (the sign not counted as a
digit), non-empty digit string of total length `L` returns
`int(d) / 10^(L − u)` under leading-zero-suppression, `u` being the
declared upper digit count of the current unit system, and
`int(d) / 10^l` under trailing-zero-suppression, `l` being the declared
lower digit count of the current unit system. -/
theorem c3_parse_number (d : Doc) (sg : Option Bool) (ds : List Char)
    (h1 : ds ≠ []) (h2 : ∀ c ∈ ds, isDigitCh c = true) :
    parse_number d (signTok sg ds) =
      some (signVal sg * (digitsVal ds : ℚ) /
        (10 : ℚ) ^ (if isLeading d.zeros then (ds.length : ℤ) - (upperDigits d : ℤ)
          else (lowerDigits d : ℤ))) := by
  have hsplit := splitSign_signTok sg ds h1 h2
  have hfl := floatLit_signTok sg ds h1 h2
  have hall0 : ∀ c ∈ ds.dropWhile (fun c => decide (c = '0')), isDigitCh c = true :=
    fun a ha => h2 a ((List.dropWhile_sublist _).subset ha)
  have hsig : (ds.dropWhile (fun c => decide (c = '0'))).takeWhile isDigitCh
      = ds.dropWhile (fun c => decide (c = '0')) := takeWhile_of_all _ hall0
  have hnr : (ds.takeWhile (fun c => decide (c = '0'))).length +
      ((ds.drop (ds.takeWhile (fun c => decide (c = '0'))).length).takeWhile isDigitCh).length
      = ds.length := by
    rw [drop_takeWhile_length, hsig, takeWhile_dropWhile_length]
  simp only [parse_number, hsplit, hfl, hnr]
  by_cases hz : isLeading d.zeros
  · simp [hz, qdiv_eq, pow10_eq_zpow]
  · simp [hz, qdiv_eq, pow10_eq_zpow]

theorem c3_witness :
    ((['2', '5', '0'] : List Char) ≠ [] ∧
      ∀ c ∈ (['2', '5', '0'] : List Char), isDigitCh c = true) ∧
    parse_number (initDoc Units.IN) (signTok (some true) ['2', '5', '0']) =
      some (signVal (some true) * (digitsVal ['2', '5', '0'] : ℚ) /
        (10 : ℚ) ^ (if isLeading (initDoc Units.IN).zeros
          then ((['2', '5', '0'] : List Char).length : ℤ) - (upperDigits (initDoc Units.IN) : ℤ)
          else (lowerDigits (initDoc Units.IN) : ℤ))) :=
  ⟨⟨by decide, by decide⟩, c3_parse_number (initDoc Units.IN) (some true) ['2', '5', '0']
    (by decide) (by decide)⟩

/-! ### Routing-invariant machinery (C9) -/

/-- The state carried by a step result (on a halt, the state at the
`return`). -/
def resState : StepRes → PState
  | .cont s => s
  | .halt s _ => s

theorem cg_start (d : Doc) :
    (create_geometry d).1.match_routing_start = d.match_routing_start :=
  (create_geometry_pres d).2.2.2.2.2.2.2.2.2.1

theorem cg_drills_eq (d : Doc) : (create_geometry d).1.drills = d.drills :=
  (create_geometry_pres d).1

theorem scale_start_len (xf : ℚ) (yfO : Option ℚ) (ptO : Option (ℚ × ℚ)) (d : Doc) :
    (scale xf yfO ptO d).match_routing_start = d.match_routing_start ∧
    (scale xf yfO ptO d).drills.length = d.drills.length := by
  by_cases h : xf = 0 ∧ yfO.getD xf = 0
  · obtain ⟨h1, h2⟩ := h
    subst h1
    simp [scale, h2]
  · constructor
    · simp only [scale, if_neg h]
      rw [cg_start]
    · simp only [scale, if_neg h]
      rw [cg_drills_eq]
      simp

theorem convert_start_len (u : Units) (d : Doc) :
    (convert_units u d).match_routing_start = d.match_routing_start ∧
    (convert_units u d).drills.length = d.drills.length := by
  simp only [convert_units]
  constructor
  · rw [cg_start]
    exact (scale_start_len _ _ _ _).1
  · rw [cg_drills_eq]
    exact (scale_start_len _ _ _ _).2

theorem convert_start (u : Units) (d : Doc) :
    (convert_units u d).match_routing_start = d.match_routing_start :=
  (convert_start_len u d).1

theorem convert_len (u : Units) (d : Doc) :
    (convert_units u d).drills.length = d.drills.length :=
  (convert_start_len u d).2

/-- Single-step goal of the routing invariant. -/
def StepOK (st : PState) (r : StepRes) : Prop :=
  st.doc.match_routing_start ≠ none →
    (resState r).doc.match_routing_start ≠ none ∧
    (resState r).doc.drills.length = st.doc.drills.length

theorem unitsEffect_ok (st : PState) (u : Units) (z : Option Char) (f : Option (ℕ × ℕ))
    (h : st.doc.match_routing_start ≠ none) :
    (unitsEffect st u z f).doc.match_routing_start ≠ none ∧
    (unitsEffect st u z f).doc.drills.length = st.doc.drills.length := by
  simp only [unitsEffect]
  rcases f with _ | ⟨up, lo⟩
  · constructor
    · rw [(convert_start_len _ _).1]
      exact h
    · rw [(convert_start_len _ _).2]
  · by_cases hu : u = Units.MM <;>
      simp only [hu, if_pos, if_neg, reduceIte] <;>
      constructor <;>
      first
        | (rw [(convert_start_len _ _).1]; exact h)
        | rw [(convert_start_len _ _).2]

theorem unitsOutside_ok (st : PState) (l : List Char) : StepOK st (unitsOutside st l) := by
  intro h
  rcases hm : unitsMatch l with _ | uzf
  · simp [unitsOutside, hm, resState, h]
  · simpa [unitsOutside, hm, resState] using unitsEffect_ok st uzf.1 uzf.2.1 uzf.2.2 h

theorem coordFinish_ok (st : PState) (l : List Char) (x y : ℚ) (fall : PState → StepRes)
    (hfall : ∀ s, StepOK s (fall s)) : StepOK st (coordFinish st l x y fall) := by
  intro h
  simp only [coordFinish]
  by_cases h0 : containsTok (lit "G00") l = true
  · simp [h0, resState]
  · simp only [h0, Bool.false_eq_true, if_false]
    by_cases h1 : st.doc.routing_flag = 0 ∧ containsTok (lit "G01") l = true
    · simp [h1, resState, h]
    · simp only [h1, if_false]
      have hcond : ¬(st.doc.match_routing_start = none ∧ st.doc.match_routing_stop = none) :=
        fun hc => h hc.1
      simp only [hcond, if_false]
      exact hfall st h

theorem periodCheck_ok (st : PState) (l : List Char) : StepOK st (periodCheck st l) := by
  intro h
  rcases hm : coordsPeriodMatch l with _ | g
  · simp only [periodCheck, hm]
    exact unitsOutside_ok st l h
  · simp only [periodCheck, hm]
    rcases hr : repeatSearch l with _ | n <;> simp only [hr] <;>
    · rcases hax : axisStepF st.current_x g.1 with e | ax
      · simp [hax, resState, h]
      · rcases hay : axisStepF st.current_y g.2 with e | ay
        · simp [hax, hay, resState, h]
        · simp only [hax, hay]
          rcases hx1 : ax.1 with _ | xv <;> rcases hy1 : ay.1 with _ | yv <;>
            simp only [hx1, hy1] <;>
            first
              | (refine coordFinish_ok _ l _ _ _ (fun s => unitsOutside_ok s l) ?_
                 exact h)
              | simp [resState, h]

theorem noPeriodLine_ok (st : PState) (l : List Char)
    (g : Option (List Char) × Option (List Char)) : StepOK st (noPeriodLine st l g) := by
  intro h
  simp only [noPeriodLine]
  rcases hr : repeatSearch l with _ | n <;> simp only [hr] <;>
  · rcases hax : (axisStep st.doc st.current_x g.1).1 with _ | xv <;>
      rcases hay : (axisStep st.doc st.current_y g.2).1 with _ | yv <;>
      simp only [hax, hay] <;>
      first
        | (refine coordFinish_ok _ l _ _ _ (fun s => periodCheck_ok s l) ?_
           exact h)
        | simp [resState, h]

theorem slotsLine_ok (st : PState) (a b : List Char) : StepOK st (slotsLine st a b) := by
  intro h
  simp only [slotsLine]
  rcases hm : coordsNoPeriodMatch a with _ | g
  · simp only [hm]
    rcases hp : coordsPeriodMatch a with _ | g'
    · simp [hp, resState, h]
    · simp only [hp]
      rcases h1 : slotAxisF st.slot_current_x g'.1 with e | r1
      · simp [h1, resState, h]
      · simp only [h1]
        rcases h2 : slotAxisF st.slot_current_y g'.2 with e | r2
        · simp [h2, resState, h]
        · simp only [h2]
          rcases hb : coordsPeriodMatch b with _ | g''
          · simp [hb, resState, h]
          · simp only [hb]
            rcases h3 : slotAxisF r1.2 g''.1 with e | r3
            · simp [h3, resState, h]
            · simp only [h3]
              rcases h4 : slotAxisF r2.2 g''.2 with e | r4
              · simp [h4, resState, h]
              · simp only [h4]
                rcases hx1 : r1.1 with _ | sx <;> rcases hx2 : r2.1 with _ | sy <;>
                  rcases hx3 : r3.1 with _ | tx <;> rcases hx4 : r4.1 with _ | ty <;>
                  simp [hx1, hx2, hx3, hx4, resState, h]
  · simp only [hm]
    rcases hb : coordsNoPeriodMatch b with _ | g'
    · simp [hb, resState, h]
    · simp only [hb]
      rcases hx1 : (slotAxis { st.doc with excellon_drills := some false }
          st.slot_current_x g.1).1 with _ | sx <;>
        rcases hx2 : (slotAxis { st.doc with excellon_drills := some false }
          st.slot_current_y g.2).1 with _ | sy <;>
        rcases hx3 : (slotAxis { st.doc with excellon_drills := some false }
          (slotAxis { st.doc with excellon_drills := some false } st.slot_current_x g.1).2
          g'.1).1 with _ | tx <;>
        rcases hx4 : (slotAxis { st.doc with excellon_drills := some false }
          (slotAxis { st.doc with excellon_drills := some false } st.slot_current_y g.2).2
          g'.2).1 with _ | ty <;>
        simp [hx1, hx2, hx3, hx4, resState, h]

theorem toolChange_ok (st : PState) (l : List Char) (ds : List Char)
    (h : st.doc.match_routing_start ≠ none) :
    (toolChange st l ds).doc.match_routing_start ≠ none ∧
    (toolChange st l ds).doc.drills.length = st.doc.drills.length := by
  simp only [toolChange]
  by_cases hh : st.headerless = true
  · simp only [hh, if_true]
    rcases hm : toolsetHlMatch l with _ | dg
    · simp [resState, h]
    · rcases hd : dg.2.bind floatLit with _ | dv <;> simp [hd, resState, h]
  · simp only [hh]
    simp [resState, h]

theorem bodyLine_ok (st : PState) (l : List Char) : StepOK st (bodyLine st l) := by
  intro h
  simp only [bodyLine]
  rcases hm : toolselMatch l with _ | ds
  · simp only [hm]
    by_cases ha : st.allegro_warning = true ∧ (absincMatch l = true ∨ stopMatch l = true)
    · simp [ha, resState, h]
    · simp only [ha, if_false]
      rcases hs : slotsMatch l with _ | ab
      · rcases hc : coordsNoPeriodMatch l with _ | g
        · simp only [hs, hc]
          exact periodCheck_ok st l h
        · simp only [hs, hc]
          exact noPeriodLine_ok st l g h
      · simp only [hs]
        exact slotsLine_ok st ab.1 ab.2 h
  · simp only [hm]
    exact toolChange_ok st l ds h

theorem headerLine_ok (st : PState) (l : List Char) : StepOK st (headerLine st l) := by
  intro h
  simp only [headerLine]
  rcases hm : toolsetMatch l with _ | dg
  · rcases hu : unitsMatch l with _ | uzf
    · by_cases hin : containsTok (lit "INCH") l = true
      · simp only [hm, hu, hin, if_true, reduceIte]
        refine ⟨?_, ?_⟩
        · simp only [resState]
          show (convert_units Units.IN st.doc).match_routing_start ≠ none
          rw [(convert_start_len Units.IN st.doc).1]
          exact h
        · simp only [resState]
          show (convert_units Units.IN st.doc).drills.length = _
          rw [(convert_start_len Units.IN st.doc).2]
      · by_cases hmm2 : containsTok (lit "METRIC") l = true
        · simp only [hm, hu, hin, hmm2, if_true, Bool.false_eq_true, if_false, reduceIte]
          refine ⟨?_, ?_⟩
          · simp only [resState]
            show (convert_units Units.MM st.doc).match_routing_start ≠ none
            rw [(convert_start_len Units.MM st.doc).1]
            exact h
          · simp only [resState]
            show (convert_units Units.MM st.doc).drills.length = _
            rw [(convert_start_len Units.MM st.doc).2]
        · rcases hz : ltzMatch l with _ | z
          · simp only [hu, hin, hmm2, hz, Bool.false_eq_true, if_false]
            exact unitsOutside_ok st l h
          · simp [hu, hin, hmm2, hz, resState, h]
    · simp only [hu]
      simpa [resState] using unitsEffect_ok st uzf.1 uzf.2.1 uzf.2.2 h
  · rcases hd2 : dg.2 with _ | tok
    · simp [hd2, resState, h]
    · rcases hfv : floatLit tok with _ | v <;> simp [hd2, hfv, resState, h]

theorem hendEffect_ok (st : PState) (h : st.doc.match_routing_start ≠ none) :
    (hendEffect st).doc.match_routing_start ≠ none ∧
    (hendEffect st).doc.drills.length = st.doc.drills.length := by
  simp only [hendEffect]
  by_cases h1 : st.in_header = false ∨ st.doc.tools = []
  · simp only [h1, if_true, reduceIte]
    by_cases h2 : st.doc.excellon_units = lit "INCH"
    · by_cases h3 : st.allegro_warning = true <;>
        simp [h1, h2, h3, resState, (convert_start_len Units.IN st.doc).1,
          (convert_start_len Units.IN st.doc).2, h]
    · by_cases h4 : st.doc.excellon_units = lit "METRIC"
      · have hne : lit "METRIC" ≠ lit "INCH" := by decide
        by_cases h3 : st.allegro_warning = true <;>
          simp [h1, h2, h3, h4, hne, resState, (convert_start_len Units.MM st.doc).1,
            (convert_start_len Units.MM st.doc).2, h]
      · by_cases h3 : st.allegro_warning = true <;> simp [h1, h2, h3, h4, resState, h]
  · by_cases h3 : st.allegro_warning = true <;> simp [h1, h3, resState, h]

theorem commentLine_ok (st : PState) (l : List Char) : StepOK st (commentLine st l) := by
  intro h
  simp only [commentLine]
  rcases hm : toolUnitsMatch l with _ | gm
  · rcases ha : altiumMatch l with _ | dd
    · simp only [hm, ha]
      -- afterComm is handled by the caller's lemma; inline it here
      simp only [afterComm]
      rcases hme : measMatch l with _ | u
      · by_cases hin : st.in_header = false
        · simp only [hme, hin, if_pos, reduceIte]
          exact bodyLine_ok st l h
        · simp only [hme, hin, reduceIte]
          exact headerLine_ok st l h
      · simp only [hme]
        constructor
        · simp only [resState]
          rw [(convert_start_len _ _).1]
          exact h
        · simp only [resState]
          rw [(convert_start_len _ _).2]
    · simp [hm, ha, resState, h]
  · by_cases hluf : st.line_units_found = false
    · rcases hfv : floatLit (gm.1.1 ++ gm.1.2.1 :: gm.1.2.2) with _ | v <;>
        simp [hm, hluf, hfv, resState, h, convert_start, convert_len]
    · rcases hfv : floatLit (gm.1.1 ++ gm.1.2.1 :: gm.1.2.2) with _ | v <;>
        simp [hm, hluf, hfv, resState, h]

theorem afterComm_ok (st : PState) (l : List Char) : StepOK st (afterComm st l) := by
  intro h
  simp only [afterComm]
  rcases hme : measMatch l with _ | u
  · by_cases hin : st.in_header = false
    · simp only [hme, hin, reduceIte]
      exact bodyLine_ok st l h
    · simp only [hme, hin, reduceIte]
      exact headerLine_ok st l h
  · simp only [hme]
    constructor
    · simp only [resState]
      rw [(convert_start_len _ _).1]
      exact h
    · simp only [resState]
      rw [(convert_start_len _ _).2]

theorem parse_line_ok (st : PState) (l : List Char) : StepOK st (parse_line st l) := by
  intro h
  simp only [parse_line]
  by_cases h1 : gcodeMatch l = true
  · simp [h1, resState, h]
  · by_cases h2 : hbeginMatch l = true
    · simp [h1, h2, resState, h]
    · by_cases h3 : allegroHbMatch l = true
      · simp [h1, h2, h3, resState, h]
      · by_cases h4 : commMatch l = true
        · simp only [h1, h2, h3, h4, Bool.false_eq_true, if_false, if_true, reduceIte]
          exact commentLine_ok st l h
        · by_cases h5 : hendMatch l = true
          · simp only [h1, h2, h3, h4, h5, Bool.false_eq_true, if_false, if_true, reduceIte]
            simpa [resState] using hendEffect_ok st h
          · simp only [h1, h2, h3, h4, h5, Bool.false_eq_true, if_false, reduceIte]
            exact afterComm_ok st l h

/-- C9: once `match_routing_start` is set it is never reset for the rest
of the parse, and no further drill is ever appended — later plain
coordinate lines are silently dropped instead of recorded. -/
theorem c9_routing_start_sticky (lines : List (List Char)) (st : PState)
    (h : st.doc.match_routing_start ≠ none) :
    (parse_lines lines st).1.doc.match_routing_start ≠ none ∧
    (parse_lines lines st).1.doc.drills.length = st.doc.drills.length := by
  induction lines generalizing st with
  | nil => exact ⟨h, rfl⟩
  | cons l rest ih =>
      have hok := parse_line_ok st (stripLine l) h
      rcases hs : parse_line st (stripLine l) with st' | ⟨st', status⟩
      · rw [hs] at hok
        simp only [resState] at hok
        simp only [parse_lines, hs]
        exact ⟨(ih st' hok.1).1, (ih st' hok.1).2.trans hok.2⟩
      · rw [hs] at hok
        simp only [resState] at hok
        simp only [parse_lines, hs]
        exact hok

/-- A state whose routing-start marker is already set, for the witness. -/
def c9state : PState := initState { initDoc Units.MM with match_routing_start := some () }

theorem c9_witness :
    c9state.doc.match_routing_start ≠ none ∧
    (parse_lines [lit "X020000Y020000"] c9state).1.doc.match_routing_start ≠ none ∧
    (parse_lines [lit "X020000Y020000"] c9state).1.doc.drills.length =
      c9state.doc.drills.length :=
  ⟨by decide,
    (c9_routing_start_sticky [lit "X020000Y020000"] c9state (by decide)).1,
    (c9_routing_start_sticky [lit "X020000Y020000"] c9state (by decide)).2⟩

/-! ### The repeat directive (C4) -/

/-- Dispatch: a body line that matches none of the earlier rules and
matches the no-period coordinate grammar is processed by
`noPeriodLine`. -/
theorem parse_line_body_np (st : PState) (l : List Char)
    (g : Option (List Char) × Option (List Char))
    (hg : gcodeMatch l = false) (hb : hbeginMatch l = false)
    (hab : allegroHbMatch l = false) (hc : commMatch l = false)
    (he : hendMatch l = false) (hme : measMatch l = none)
    (hin : st.in_header = false) (hts : toolselMatch l = none)
    (haw : st.allegro_warning = false) (hsl : slotsMatch l = none)
    (hnp : coordsNoPeriodMatch l = some g) :
    parse_line st l = noPeriodLine st l g := by
  simp only [parse_line, hg, hb, hab, hc, he, Bool.false_eq_true, if_false]
  simp only [afterComm, hme, hin, reduceIte]
  simp only [bodyLine, hts, haw, hsl, hnp, Bool.false_eq_true, false_and, if_false]

/-- The countdown `n, n-1, ..., 1` of the `while repeat > 0` loop. -/
def countdown : ℕ → List ℕ
  | 0 => []
  | k + 1 => (k + 1) :: countdown k

theorem countdown_length : ∀ n : ℕ, (countdown n).length = n
  | 0 => rfl
  | k + 1 => by simp [countdown, countdown_length k]

/-- Closed form of the repeat-emission loop: the step index counts down
from `n` to `1`; an axis with a truthy repeating value follows
`index × step + base`, any other axis stays at its incoming coordinate. -/
theorem emitRepeat_closed (x y : ℚ) (rx ry : Option ℚ) (tool : Option ℕ) :
    ∀ (n : ℕ) (cx cy : ℚ),
      emitRepeat n x y cx cy rx ry tool =
        (countdown n).map (fun s =>
          ⟨(if truthyQ rx then qadd (qmul ((s : ℕ) : ℚ) x) (rx.getD 0) else cx,
            if truthyQ ry then qadd (qmul ((s : ℕ) : ℚ) y) (ry.getD 0) else cy), tool⟩)
  | 0, cx, cy => rfl
  | k + 1, cx, cy => by
      simp only [emitRepeat, countdown, List.map_cons]
      by_cases hx : truthyQ rx = true <;> by_cases hy : truthyQ ry = true <;>
        simp [hx, hy, emitRepeat_closed x y rx ry tool k]

/-- C4 (amended): a body coordinate line (no-period grammar, no `G00`,
no `G01`, routing markers unset) with repeat count `n ≠ 0`, step values
`x`, `y` and previous current position `(bx, by)` appends exactly `n`
drills, the step index counting down from `n` to `1`; an axis whose base
is nonzero follows `index × step + base`, while an axis whose base is
zero stays at the bare step value (the Python truthiness test
`if repeating_x:` treats a zero base like an absent one). -/
theorem c4_repeat_drills (st : PState) (l : List Char) (tx ty : List Char)
    (n : ℕ) (x y bx b2 : ℚ)
    (hg : gcodeMatch l = false) (hb : hbeginMatch l = false)
    (hab : allegroHbMatch l = false) (hc : commMatch l = false)
    (he : hendMatch l = false) (hme : measMatch l = none)
    (hin : st.in_header = false) (hts : toolselMatch l = none)
    (haw : st.allegro_warning = false) (hsl : slotsMatch l = none)
    (hnp : coordsNoPeriodMatch l = some (some tx, some ty))
    (hrep : repeatSearch l = some n) (hn : n ≠ 0)
    (hg00 : containsTok (lit "G00") l = false)
    (hg01 : containsTok (lit "G01") l = false)
    (hstart : st.doc.match_routing_start = none)
    (hstop : st.doc.match_routing_stop = none)
    (hx : parse_number st.doc tx = some x) (hy : parse_number st.doc ty = some y)
    (hcx : st.current_x = some bx) (hcy : st.current_y = some b2) :
    (resState (parse_line st l)).doc.drills =
      st.doc.drills ++ (countdown n).map (fun s : ℕ =>
        (⟨(if bx = 0 then x else (s : ℚ) * x + bx,
           if b2 = 0 then y else (s : ℚ) * y + b2), st.current_tool⟩ : Drill)) ∧
    (resState (parse_line st l)).doc.drills.length = st.doc.drills.length + n := by
  have h1 : (resState (parse_line st l)).doc.drills =
      st.doc.drills ++ (countdown n).map (fun s : ℕ =>
        (⟨(if bx = 0 then x else (s : ℚ) * x + bx,
           if b2 = 0 then y else (s : ℚ) * y + b2), st.current_tool⟩ : Drill)) := by
    rw [parse_line_body_np st l (some tx, some ty) hg hb hab hc he hme hin hts haw hsl hnp]
    simp only [noPeriodLine, hrep, axisStep, hx, hy, hcx, hcy]
    simp only [coordFinish, hg00, hg01, Bool.false_eq_true, if_false, and_false, hstart, hstop,
      and_self, if_true, reduceIte, hn, resState]
    rw [emitRepeat_closed]
    congr 1
    apply List.map_congr_left
    intro s _
    have hgx : (some bx).getD 0 = bx := rfl
    have hgy : (some b2).getD 0 = b2 := rfl
    by_cases hbx : bx = 0 <;> by_cases hb2 : b2 = 0 <;>
      simp [truthyQ, hbx, hb2, hgx, hgy, qadd_eq, qmul_eq]
  refine ⟨h1, ?_⟩
  rw [h1]
  simp [countdown_length]

/-- C4 counterexample: after a base point `(0, 10)` (metric 3.3,
leading), the line `R3X001000Y002000` (steps `x = 1`, `y = 2`) emits its
three drills at a constant `x = 1` — not at `3×1+0, 2×1+0, 1×1+0` as the
claimed formula `stepIndex×dx + baseX` demands when the base is zero. -/
theorem c4_counterexample :
    (parse_lines [lit "X0Y010000", lit "R3X001000Y002000"]
        (initState (initDoc Units.MM))).1.doc.drills =
      [⟨(0, 10), none⟩, ⟨(1, 16), none⟩, ⟨(1, 14), none⟩, ⟨(1, 12), none⟩] ∧
    ¬([(⟨(1, 16), none⟩ : Drill), ⟨(1, 14), none⟩, ⟨(1, 12), none⟩] =
      [⟨(3, 16), none⟩, ⟨(2, 14), none⟩, ⟨(1, 12), none⟩]) := by
  constructor <;> decide

/-- A parser state in the middle of the body with a nonzero current
position, for the C4 witness. -/
def c4state : PState :=
  { initState (initDoc Units.MM) with current_x := some 5, current_y := some 7 }

theorem c4_witness :
    ((resState (parse_line c4state (lit "R3X001000Y002000"))).doc.drills =
      c4state.doc.drills ++ (countdown 3).map (fun s : ℕ =>
        (⟨(if (5 : ℚ) = 0 then 1 else (s : ℚ) * 1 + 5,
           if (7 : ℚ) = 0 then 2 else (s : ℚ) * 2 + 7), c4state.current_tool⟩ : Drill)) ∧
    (resState (parse_line c4state (lit "R3X001000Y002000"))).doc.drills.length =
      c4state.doc.drills.length + 3) :=
  c4_repeat_drills c4state (lit "R3X001000Y002000") (lit "001000") (lit "002000") 3 1 2 5 7
    (by decide) (by decide) (by decide) (by decide) (by decide) (by decide) (by decide)
    (by decide) (by decide) (by decide) (by decide) (by decide) (by decide) (by decide)
    (by decide) (by decide) (by decide) (by decide) (by decide) (by decide) (by decide)

/-! ### Reconstructed routs (C5) -/

/-- Both with-period coordinate captures of the line (if any) survive
`float` — rules out the degenerate `"X."`-style tokens whose uncaught
`ValueError` fails the parse. -/
def periodToksOK (l : List Char) : Prop :=
  match coordsPeriodMatch l with
  | none => True
  | some g =>
      (∀ t, g.1 = some t → (floatLit t).isSome = true) ∧
      (∀ t, g.2 = some t → (floatLit t).isSome = true)

/-- A body line that matches none of the special rules: no header
directive, comment, tool change, units word, `G85`, `G00` or `G01`. -/
def plainBody (l : List Char) : Prop :=
  gcodeMatch l = false ∧ hbeginMatch l = false ∧ allegroHbMatch l = false ∧
  commMatch l = false ∧ hendMatch l = false ∧ measMatch l = none ∧
  toolselMatch l = none ∧ slotsMatch l = none ∧ unitsMatch l = none ∧
  containsTok (lit "G00") l = false ∧ containsTok (lit "G01") l = false ∧
  periodToksOK l

/-- The state facts a plain body line preserves: pending slot data,
routing state, the decode configuration and the block flags. -/
def Bundle (st st' : PState) : Prop :=
  st'.doc.slots = st.doc.slots ∧ st'.doc.routing_flag = st.doc.routing_flag ∧
  st'.doc.match_routing_start = st.doc.match_routing_start ∧
  st'.doc.match_routing_stop = st.doc.match_routing_stop ∧
  st'.doc.zeros = st.doc.zeros ∧ st'.doc.units = st.doc.units ∧
  st'.doc.fmt_upper_in = st.doc.fmt_upper_in ∧ st'.doc.fmt_lower_in = st.doc.fmt_lower_in ∧
  st'.doc.fmt_upper_mm = st.doc.fmt_upper_mm ∧ st'.doc.fmt_lower_mm = st.doc.fmt_lower_mm ∧
  st'.slot_start_x = st.slot_start_x ∧ st'.slot_start_y = st.slot_start_y ∧
  st'.current_tool = st.current_tool ∧ st'.in_header = st.in_header ∧
  st'.headerless = st.headerless ∧ st'.allegro_warning = st.allegro_warning

theorem Bundle_refl (st : PState) : Bundle st st := by simp [Bundle]

theorem Bundle_trans {s1 s2 s3 : PState} (h1 : Bundle s1 s2) (h2 : Bundle s2 s3) :
    Bundle s1 s3 := by
  unfold Bundle at *
  obtain ⟨a1, a2, a3, a4, a5, a6, a7, a8, a9, a10, a11, a12, a13, a14, a15, a16⟩ := h1
  obtain ⟨b1, b2, b3, b4, b5, b6, b7, b8, b9, b10, b11, b12, b13, b14, b15, b16⟩ := h2
  exact ⟨b1.trans a1, b2.trans a2, b3.trans a3, b4.trans a4, b5.trans a5, b6.trans a6,
    b7.trans a7, b8.trans a8, b9.trans a9, b10.trans a10, b11.trans a11, b12.trans a12,
    b13.trans a13, b14.trans a14, b15.trans a15, b16.trans a16⟩

/-- `parse_number` only reads the zeros mode, unit system and formats. -/
theorem parse_number_congr (d d' : Doc) (s : List Char)
    (hz : d.zeros = d'.zeros) (hu : d.units = d'.units)
    (h1 : d.fmt_upper_in = d'.fmt_upper_in) (h2 : d.fmt_lower_in = d'.fmt_lower_in)
    (h3 : d.fmt_upper_mm = d'.fmt_upper_mm) (h4 : d.fmt_lower_mm = d'.fmt_lower_mm) :
    parse_number d s = parse_number d' s := by
  simp only [parse_number, isLeading, upperDigits, lowerDigits, hz, hu, h1, h2, h3, h4]

theorem unitsOutside_plain (st : PState) (l : List Char) (hu : unitsMatch l = none) :
    unitsOutside st l = .cont st := by
  simp [unitsOutside, hu]

theorem coordFinish_plain (st : PState) (l : List Char) (x y : ℚ) (fall : PState → StepRes)
    (hg00 : containsTok (lit "G00") l = false) (hg01 : containsTok (lit "G01") l = false)
    (hstart : st.doc.match_routing_start ≠ none) :
    coordFinish st l x y fall = fall st := by
  have hc : ¬(st.doc.match_routing_start = none ∧ st.doc.match_routing_stop = none) :=
    fun hcc => hstart hcc.1
  simp [coordFinish, hg00, hg01, hc]

theorem periodCheck_plain (st : PState) (l : List Char) (hu : unitsMatch l = none)
    (hg00 : containsTok (lit "G00") l = false) (hg01 : containsTok (lit "G01") l = false)
    (hpt : periodToksOK l) (hstart : st.doc.match_routing_start ≠ none) :
    ∃ st', periodCheck st l = .cont st' ∧ Bundle st st' := by
  rcases hm : coordsPeriodMatch l with _ | g
  · refine ⟨st, ?_, Bundle_refl st⟩
    simp [periodCheck, hm, unitsOutside_plain st l hu]
  · unfold periodToksOK at hpt
    rw [hm] at hpt
    have hax : ∀ cur : Option ℚ, ∃ r, axisStepF cur g.1 = .ok r := by
      intro cur
      rcases hg1 : g.1 with _ | t
      · exact ⟨(cur, some 0, cur), by simp [axisStepF, hg1]⟩
      · obtain ⟨v, hv⟩ := Option.isSome_iff_exists.mp (hpt.1 t hg1)
        exact ⟨(some v, cur, some v), by simp [axisStepF, hg1, hv]⟩
    have hay : ∀ cur : Option ℚ, ∃ r, axisStepF cur g.2 = .ok r := by
      intro cur
      rcases hg2 : g.2 with _ | t
      · exact ⟨(cur, some 0, cur), by simp [axisStepF, hg2]⟩
      · obtain ⟨v, hv⟩ := Option.isSome_iff_exists.mp (hpt.2 t hg2)
        exact ⟨(some v, cur, some v), by simp [axisStepF, hg2, hv]⟩
    simp only [periodCheck, hm]
    rcases hr : repeatSearch l with _ | n <;> simp only [hr] <;>
    · obtain ⟨ax, hax1⟩ := hax st.current_x
      obtain ⟨ay, hay1⟩ := hay st.current_y
      simp only [hax1, hay1]
      rcases hx1 : ax.1 with _ | xv <;> rcases hy1 : ay.1 with _ | yv <;>
        simp only [hx1, hy1]
      case' some.some =>
        rw [coordFinish_plain _ l xv yv _ hg00 hg01 (by exact hstart),
          unitsOutside_plain _ l hu]
      all_goals exact ⟨_, rfl, by simp [Bundle]⟩

theorem noPeriodLine_plain (st : PState) (l : List Char)
    (g : Option (List Char) × Option (List Char)) (hu : unitsMatch l = none)
    (hg00 : containsTok (lit "G00") l = false) (hg01 : containsTok (lit "G01") l = false)
    (hpt : periodToksOK l) (hstart : st.doc.match_routing_start ≠ none) :
    ∃ st', noPeriodLine st l g = .cont st' ∧ Bundle st st' := by
  have key : ∀ st0 : PState, st0.doc.match_routing_start = st.doc.match_routing_start →
      Bundle st st0 → ∃ st', periodCheck st0 l = .cont st' ∧ Bundle st st' := by
    intro st0 hs0 hb0
    obtain ⟨st'', hpc, hbn⟩ :=
      periodCheck_plain st0 l hu hg00 hg01 hpt (by rw [hs0]; exact hstart)
    exact ⟨st'', hpc, Bundle_trans hb0 hbn⟩
  simp only [noPeriodLine]
  rcases hr : repeatSearch l with _ | n <;> simp only [hr] <;>
  · rcases hx1 : (axisStep st.doc st.current_x g.1).1 with _ | xv <;>
      rcases hy1 : (axisStep st.doc st.current_y g.2).1 with _ | yv <;>
      simp only [hx1, hy1]
    case' some.some =>
      rw [coordFinish_plain _ l xv yv _ hg00 hg01 (by exact hstart)]
      exact key _ rfl (by simp [Bundle])
    all_goals exact ⟨_, rfl, by simp [Bundle]⟩

/-- A plain body line continues the parse and leaves the pending rout
data, the routing state, the decode configuration and the current tool
untouched. -/
theorem plainBody_step (st : PState) (l : List Char) (hpb : plainBody l)
    (hin : st.in_header = false) (haw : st.allegro_warning = false)
    (hstart : st.doc.match_routing_start ≠ none) :
    ∃ st', parse_line st l = .cont st' ∧ Bundle st st' := by
  obtain ⟨hg, hb, hab, hc, he, hme, hts, hsl, hu, hg00, hg01, hpt⟩ := hpb
  simp only [parse_line, hg, hb, hab, hc, he, Bool.false_eq_true, if_false]
  simp only [afterComm, hme, hin, reduceIte]
  simp only [bodyLine, hts, haw, hsl, Bool.false_eq_true, false_and, if_false]
  rcases hnp : coordsNoPeriodMatch l with _ | g
  · simp only [hnp]
    exact periodCheck_plain st l hu hg00 hg01 hpt hstart
  · simp only [hnp]
    exact noPeriodLine_plain st l g hu hg00 hg01 hpt hstart

/-- A `G00`-flagged coordinate line opens a rout: routing flag `0`, start
marker set, candidate slot start recorded, nothing else of the rout data
touched. -/
theorem parse_line_G00 (st : PState) (l tx ty : List Char) (x y : ℚ)
    (hg : gcodeMatch l = false) (hb : hbeginMatch l = false)
    (hab : allegroHbMatch l = false) (hc : commMatch l = false)
    (he : hendMatch l = false) (hme : measMatch l = none)
    (hin : st.in_header = false) (hts : toolselMatch l = none)
    (haw : st.allegro_warning = false) (hsl : slotsMatch l = none)
    (hnp : coordsNoPeriodMatch l = some (some tx, some ty))
    (hr : repeatSearch l = none)
    (hg00 : containsTok (lit "G00") l = true)
    (hx : parse_number st.doc tx = some x) (hy : parse_number st.doc ty = some y) :
    ∃ st', parse_line st l = .cont st' ∧
      st'.doc.slots = st.doc.slots ∧ st'.doc.routing_flag = 0 ∧
      st'.doc.match_routing_start = some () ∧
      st'.slot_start_x = some x ∧ st'.slot_start_y = some y ∧
      st'.current_tool = st.current_tool ∧ st'.in_header = false ∧
      st'.allegro_warning = false ∧
      st'.doc.zeros = st.doc.zeros ∧ st'.doc.units = st.doc.units ∧
      st'.doc.fmt_upper_in = st.doc.fmt_upper_in ∧ st'.doc.fmt_lower_in = st.doc.fmt_lower_in ∧
      st'.doc.fmt_upper_mm = st.doc.fmt_upper_mm ∧
      st'.doc.fmt_lower_mm = st.doc.fmt_lower_mm := by
  rw [parse_line_body_np st l (some tx, some ty) hg hb hab hc he hme hin hts haw hsl hnp]
  simp only [noPeriodLine, hr, axisStep, hx, hy]
  simp only [coordFinish, hg00, if_true, reduceIte]
  exact ⟨_, rfl, by simp [hin, haw]⟩

/-- While the routing flag is `0`, a `G01`-flagged coordinate line closes
the rout: exactly one slot is appended, from the recorded start to the
line's decoded point, under the currently selected tool. -/
theorem parse_line_G01 (st : PState) (l tx ty : List Char) (x y : ℚ)
    (hg : gcodeMatch l = false) (hb : hbeginMatch l = false)
    (hab : allegroHbMatch l = false) (hc : commMatch l = false)
    (he : hendMatch l = false) (hme : measMatch l = none)
    (hin : st.in_header = false) (hts : toolselMatch l = none)
    (haw : st.allegro_warning = false) (hsl : slotsMatch l = none)
    (hnp : coordsNoPeriodMatch l = some (some tx, some ty))
    (hr : repeatSearch l = none)
    (hg00 : containsTok (lit "G00") l = false)
    (hg01 : containsTok (lit "G01") l = true)
    (hrf : st.doc.routing_flag = 0)
    (hx : parse_number st.doc tx = some x) (hy : parse_number st.doc ty = some y) :
    ∃ st', parse_line st l = .cont st' ∧
      st'.doc.slots = st.doc.slots ++
        [⟨(st.slot_start_x.getD 0, st.slot_start_y.getD 0), (x, y), st.current_tool⟩] := by
  rw [parse_line_body_np st l (some tx, some ty) hg hb hab hc he hme hin hts haw hsl hnp]
  simp only [noPeriodLine, hr, axisStep, hx, hy]
  simp only [coordFinish, hg00, hg01, Bool.false_eq_true, if_false, hrf, and_true, if_true,
    reduceIte]
  exact ⟨_, rfl, by simp⟩

/-- The tail of a rout: any number of plain body lines followed by the
closing `G01` line appends exactly the one slot; without the closing
line, no slot at all. -/
theorem c5_tail (l1 tx1 ty1 : List Char) (x1 y1 : ℚ)
    (hg : gcodeMatch l1 = false) (hb : hbeginMatch l1 = false)
    (hab : allegroHbMatch l1 = false) (hc : commMatch l1 = false)
    (he : hendMatch l1 = false) (hme : measMatch l1 = none)
    (hts : toolselMatch l1 = none) (hsl : slotsMatch l1 = none)
    (hnp : coordsNoPeriodMatch l1 = some (some tx1, some ty1))
    (hr : repeatSearch l1 = none)
    (hg00 : containsTok (lit "G00") l1 = false)
    (hg01 : containsTok (lit "G01") l1 = true)
    (hstrip1 : stripLine l1 = l1) :
    ∀ (mids : List (List Char)) (st : PState),
      (∀ m ∈ mids, stripLine m = m ∧ plainBody m) →
      st.in_header = false → st.allegro_warning = false →
      st.doc.routing_flag = 0 → st.doc.match_routing_start = some () →
      parse_number st.doc tx1 = some x1 → parse_number st.doc ty1 = some y1 →
      (parse_lines (mids ++ [l1]) st).1.doc.slots =
        st.doc.slots ++ [⟨(st.slot_start_x.getD 0, st.slot_start_y.getD 0), (x1, y1),
          st.current_tool⟩] ∧
      (parse_lines (mids ++ [l1]) st).2 = PStatus.ok ∧
      (parse_lines mids st).1.doc.slots = st.doc.slots ∧
      (parse_lines mids st).2 = PStatus.ok
  | [], st, hmids, hin, haw, hrf, hms, hx1, hy1 => by
      obtain ⟨st', hstep, hslots⟩ := parse_line_G01 st l1 tx1 ty1 x1 y1
        hg hb hab hc he hme hin hts haw hsl hnp hr hg00 hg01 hrf hx1 hy1
      refine ⟨?_, ?_, rfl, rfl⟩
      · simp only [List.nil_append, parse_lines, hstrip1, hstep]
        exact hslots
      · simp only [List.nil_append, parse_lines, hstrip1, hstep]
  | m :: rest, st, hmids, hin, haw, hrf, hms, hx1, hy1 => by
      have hm := hmids m (List.mem_cons_self m rest)
      obtain ⟨st', hstep, hbn⟩ := plainBody_step st m hm.2 hin haw (by rw [hms]; simp)
      obtain ⟨b1, b2, b3, b4, b5, b6, b7, b8, b9, b10, b11, b12, b13, b14, b15, b16⟩ := hbn
      have hcong : ∀ s : List Char, parse_number st'.doc s = parse_number st.doc s :=
        fun s => parse_number_congr st'.doc st.doc s b5 b6 b7 b8 b9 b10
      have ihx := c5_tail l1 tx1 ty1 x1 y1 hg hb hab hc he hme hts hsl hnp hr hg00 hg01
        hstrip1 rest st' (fun m' hm' => hmids m' (List.mem_cons_of_mem m hm'))
        (b14.trans hin) (b16.trans haw) (b2.trans hrf) (b3.trans hms)
        ((hcong tx1).trans hx1) ((hcong ty1).trans hy1)
      have hcons : ∀ tail : List (List Char),
          parse_lines (m :: tail) st = parse_lines tail st' := by
        intro tail
        simp only [parse_lines, hm.1, hstep]
      refine ⟨?_, ?_, ?_, ?_⟩
      · rw [List.cons_append, hcons (rest ++ [l1]), ihx.1, b1, b11, b12, b13]
      · rw [List.cons_append, hcons (rest ++ [l1]), ihx.2.1]
      · rw [hcons rest, ihx.2.2.1, b1]
      · rw [hcons rest, ihx.2.2.2]

/-- C5: a body sequence `G00`-line, then plain coordinate lines, then a
`G01`-line appends exactly one slot, from the `G00` line's decoded point
to the `G01` line's decoded point, under the currently selected tool —
and the same sequence without the closing `G01` appends no slot at all
(the open rout is silently discarded). -/
theorem c5_rout_pair (st : PState) (l0 l1 tx0 ty0 tx1 ty1 : List Char)
    (mids : List (List Char)) (x0 y0 x1 y1 : ℚ)
    (hin : st.in_header = false) (haw : st.allegro_warning = false)
    (hg0 : gcodeMatch l0 = false) (hb0 : hbeginMatch l0 = false)
    (hab0 : allegroHbMatch l0 = false) (hc0 : commMatch l0 = false)
    (he0 : hendMatch l0 = false) (hme0 : measMatch l0 = none)
    (hts0 : toolselMatch l0 = none) (hsl0 : slotsMatch l0 = none)
    (hnp0 : coordsNoPeriodMatch l0 = some (some tx0, some ty0))
    (hr0 : repeatSearch l0 = none)
    (hg000 : containsTok (lit "G00") l0 = true)
    (hstrip0 : stripLine l0 = l0)
    (hx0 : parse_number st.doc tx0 = some x0) (hy0 : parse_number st.doc ty0 = some y0)
    (hmids : ∀ m ∈ mids, stripLine m = m ∧ plainBody m)
    (hg1 : gcodeMatch l1 = false) (hb1 : hbeginMatch l1 = false)
    (hab1 : allegroHbMatch l1 = false) (hc1 : commMatch l1 = false)
    (he1 : hendMatch l1 = false) (hme1 : measMatch l1 = none)
    (hts1 : toolselMatch l1 = none) (hsl1 : slotsMatch l1 = none)
    (hnp1 : coordsNoPeriodMatch l1 = some (some tx1, some ty1))
    (hr1 : repeatSearch l1 = none)
    (hg001 : containsTok (lit "G00") l1 = false)
    (hg011 : containsTok (lit "G01") l1 = true)
    (hstrip1 : stripLine l1 = l1)
    (hx1 : parse_number st.doc tx1 = some x1) (hy1 : parse_number st.doc ty1 = some y1) :
    (parse_lines (l0 :: (mids ++ [l1])) st).1.doc.slots =
      st.doc.slots ++ [⟨(x0, y0), (x1, y1), st.current_tool⟩] ∧
    (parse_lines (l0 :: (mids ++ [l1])) st).2 = PStatus.ok ∧
    (parse_lines (l0 :: mids) st).1.doc.slots = st.doc.slots ∧
    (parse_lines (l0 :: mids) st).2 = PStatus.ok := by
  obtain ⟨st1, hstep0, hs1, hrf1, hms1, hssx, hssy, hct, hin1, haw1, hz1, hu1, hfa, hfb,
    hfc, hfd⟩ := parse_line_G00 st l0 tx0 ty0 x0 y0
      hg0 hb0 hab0 hc0 he0 hme0 hin hts0 haw hsl0 hnp0 hr0 hg000 hx0 hy0
  have hcong : ∀ s : List Char, parse_number st1.doc s = parse_number st.doc s :=
    fun s => parse_number_congr st1.doc st.doc s hz1 hu1 hfa hfb hfc hfd
  have htail := c5_tail l1 tx1 ty1 x1 y1 hg1 hb1 hab1 hc1 he1 hme1 hts1 hsl1 hnp1 hr1
    hg001 hg011 hstrip1 mids st1 hmids hin1 haw1 hrf1 hms1
    ((hcong tx1).trans hx1) ((hcong ty1).trans hy1)
  have hcons : ∀ tail : List (List Char),
      parse_lines (l0 :: tail) st = parse_lines tail st1 := by
    intro tail
    simp only [parse_lines, hstrip0, hstep0]
  refine ⟨?_, ?_, ?_, ?_⟩
  · rw [hcons (mids ++ [l1]), htail.1, hs1, hssx, hssy, hct]
    simp
  · rw [hcons (mids ++ [l1]), htail.2.1]
  · rw [hcons mids, htail.2.2.1, hs1]
  · rw [hcons mids, htail.2.2.2]

theorem c5_witness :
    (parse_lines (lit "G00X010000Y010000" :: ([lit "X015000Y015000"] ++ [lit "G01X020000Y030000"]))
        (initState (initDoc Units.MM))).1.doc.slots =
      (initState (initDoc Units.MM)).doc.slots ++
        [⟨(10, 10), (20, 30), (initState (initDoc Units.MM)).current_tool⟩] ∧
    (parse_lines (lit "G00X010000Y010000" :: ([lit "X015000Y015000"] ++ [lit "G01X020000Y030000"]))
        (initState (initDoc Units.MM))).2 = PStatus.ok ∧
    (parse_lines (lit "G00X010000Y010000" :: [lit "X015000Y015000"])
        (initState (initDoc Units.MM))).1.doc.slots = (initState (initDoc Units.MM)).doc.slots ∧
    (parse_lines (lit "G00X010000Y010000" :: [lit "X015000Y015000"])
        (initState (initDoc Units.MM))).2 = PStatus.ok :=
  c5_rout_pair (initState (initDoc Units.MM)) (lit "G00X010000Y010000")
    (lit "G01X020000Y030000") (lit "010000") (lit "010000") (lit "020000") (lit "030000")
    [lit "X015000Y015000"] 10 10 20 30
    (by decide) (by decide) (by decide) (by decide) (by decide) (by decide) (by decide)
    (by decide) (by decide) (by decide) (by decide) (by decide) (by decide) (by decide)
    (by decide) (by decide)
    (by intro m hm
        have hm' : m = lit "X015000Y015000" := List.mem_singleton.mp hm
        subst hm'
        refine ⟨by decide, by decide, by decide, by decide, by decide, by decide, by decide,
          by decide, by decide, by decide, by decide, by decide, ?_⟩
        have h : coordsPeriodMatch (lit "X015000Y015000") = some (none, none) := by decide
        simp only [periodToksOK, h]
        exact ⟨fun t ht => Option.noConfusion ht, fun t ht => Option.noConfusion ht⟩)
    (by decide) (by decide) (by decide) (by decide) (by decide) (by decide) (by decide)
    (by decide) (by decide) (by decide) (by decide) (by decide) (by decide) (by decide)
    (by decide)

end ExcellonSpec
